import Mathlib

/-!
# Staging validation and search-query compilation (`model/staging.go`)

A shallow embedding of `Staging.Valid`, `StagingNestedSearch.Valid`,
`mapToNestedSearchBy`, `searchQuery`, `Staging.KeyString`, `StagingFields.Equal` and
`StagingFields.ExistIn`, followed by the properties proved of them.

Modelling conventions.

* A Go `map[string]any` is an association list with pairwise distinct keys. The order of
  the list is the order in which one `range` loop over the map visits its entries, which
  Go leaves unspecified: a statement "for every iteration order" is a statement about
  every list, or about every two lists that are permutations of one another.
* A Go `string` is a Lean `String`. Go compares strings byte by byte; on valid UTF-8 this
  is the order of the code points, which is the order of `String` in Lean.
* A function that can panic returns `Except GoPanic _`.
-/

namespace Model

/-! ## Data model -/

/-- A value held in a Go `any`: the dynamic types `encoding/json` decodes into, and `int`
as a representative of the dynamic types a Go caller can store besides those. A `float64`
is kept as its IEEE-754 bit pattern. -/
inductive Value where
  | float (bits : Nat)
  | bool (b : Bool)
  | str (s : String)
  | map (m : List (String × Value))
  | list (xs : List Value)
  | int (i : Int)
  | null

/-- Go: `type StagingFields map[string]any`. -/
abbrev StagingFields := List (String × Value)

/-- Go: `type StagingTable string` (the type whose conversion `StagingTable(table.(string))`
appears in `mapToNestedSearchBy`). -/
abbrev StagingTable := String

/-- Modelled from the spec: the table schema registry behind the methods
`StagingTable.Valid`, `StagingTable.isField`, `StagingTable.PkNames` and
`StagingTable.PkVars`, whose declarations are not in the source at hand. The spec (4.1)
describes them as read-only static configuration: whether a table name is known, whether a
field is declared for a table, the primary-key names in declared order, and the parallel
scan variables (of a type `σ` this development does not look into). -/
structure Registry (σ : Type) where
  Valid : StagingTable → Bool
  isField : StagingTable → String → Bool
  PkNames : StagingTable → List String
  PkVars : StagingTable → List σ

/-- Go: the map index expression `m[k]` at type `map[string]any`, with the comma-ok flag:
`none` when the key is absent. -/
def StagingFields.lookup (m : StagingFields) (k : String) : Option Value :=
  match m with
  | [] => none
  | (k', v) :: rest => if k' = k then some v else StagingFields.lookup rest k

/-- Go: the map index expression `m[k]` without the flag: the zero value `nil` when the
key is absent. -/
def StagingFields.index (m : StagingFields) (k : String) : Value :=
  match StagingFields.lookup m k with
  | some v => v
  | none => Value.null

/-- The keys of a map, in the order one `range` loop meets them. -/
def StagingFields.keys (m : StagingFields) : List String :=
  m.map Prod.fst

/-! ## The fragment of `fmt.Sprintf` that `searchQuery` reaches -/

/-- An operand of `fmt.Sprintf` of string kind (`string`, or `StagingTable`, which is a
string type; the model takes it to have no `String`, `Error` or `Format` method). -/
abbrev FmtArg := String

/-- Go: `(*pp).doPrintf` of package `fmt`, on string operands and without argument
reordering, as far as this development models it. The format is scanned left to right:

* a character other than `%` is copied;
* `%%` writes `%`;
* `%` at the end of the format writes `%!(NOVERB)`;
* `%s` and `%v` with an operand left write that operand;
* `%` followed by a verb character when no operand is left writes `%!` verb `(MISSING)`.

Flags (`#0+- `), widths, precisions, argument indices, other verbs applied to an operand,
and operands left over at the end of the format are outside the fragment: the result is
then `none`. -/
def doPrintf : List Char → List FmtArg → Option (List Char)
  | [], [] => some []
  | [], _ :: _ => none
  | c :: fs, a =>
    if c ≠ '%' then (doPrintf fs a).map (fun out => c :: out)
    else
      match fs with
      | [] => some "%!(NOVERB)".data
      | verb :: rest =>
        if verb = '%' then (doPrintf rest a).map (fun out => '%' :: out)
        else if verb ∈ ['#', '0', '+', '-', ' ', '*', '.', '[',
            '1', '2', '3', '4', '5', '6', '7', '8', '9'] then none
        else
          match a with
          | [] => (doPrintf rest []).map
              (fun out => "%!".data ++ verb :: ("(MISSING)".data ++ out))
          | x :: a' =>
            if verb = 's' ∨ verb = 'v' then (doPrintf rest a').map (fun out => x.data ++ out)
            else none

/-- Go: `fmt.Sprintf(format, a...)`, on the fragment of `doPrintf`. -/
def Sprintf (format : String) (a : List FmtArg) : Option String :=
  (doPrintf format.data a).map String.mk

/-! ## `searchQuery` -/

/-- Go: the comparison `a < b` of two strings, on their characters: the first position
where they differ decides, and a proper prefix is smaller. -/
def stringLess : List Char → List Char → Bool
  | _, [] => false
  | [], _ :: _ => true
  | x :: xs, y :: ys =>
    if x < y then true else if y < x then false else stringLess xs ys

/-- The order `sort.Strings` sorts by: `a` may stand before `b` when `b < a` is false. -/
def stringLE (a b : String) : Prop :=
  stringLess b.data a.data = false

instance stringLE.decidable : DecidableRel stringLE :=
  fun a b => inferInstanceAs (Decidable (stringLess b.data a.data = false))

/-- Go: `sort.Strings`, which sorts into ascending order of `<` on strings. The result of
a sort by a total order on values that are equal only when identical does not depend on
the algorithm; insertion sort stands for it. -/
def sortStrings (keys : List String) : List String :=
  keys.insertionSort stringLE

/-- Go: the body of `for _, k := range keys` in `searchQuery`, with the loop state
`(where, args, i)`. The constant-format call `fmt.Sprintf("%s = $%d", k, i)` is the
concatenation of `k`, `" = $"` and the decimal digits of `i`. -/
def searchQuery.loop (searchBy : StagingFields) :
    List String → List String × List Value × Nat → List String × List Value × Nat
  | [], st => st
  | k :: ks, (wh, args, i) =>
    searchQuery.loop searchBy ks
      (wh ++ [k ++ " = $" ++ toString i], args ++ [StagingFields.index searchBy k], i + 1)

/-- The local variable `where` of `searchQuery` when the second loop is left. -/
def searchQuery.whereList (searchBy : StagingFields) : List String :=
  (searchQuery.loop searchBy (sortStrings (StagingFields.keys searchBy)) ([], [], 1)).1

/-- The local variable `args` of `searchQuery` when the second loop is left. -/
def searchQuery.argList (searchBy : StagingFields) : List Value :=
  (searchQuery.loop searchBy (sortStrings (StagingFields.keys searchBy)) ([], [], 1)).2.1

/-- Go: `searchQuery(table, searchBy)`. The third component is `none` when the format
string handed to `fmt.Sprintf` leaves the modelled fragment. -/
def searchQuery {σ : Type} (reg : Registry σ) (table : StagingTable)
    (searchBy : StagingFields) : List String × List σ × Option String × List Value :=
  let wh := searchQuery.whereList searchBy
  let args := searchQuery.argList searchBy
  let pks := reg.PkNames table
  let fieldVars := reg.PkVars table
  let query := Sprintf ("SELECT %s FROM %s WHERE " ++ String.intercalate " AND " wh)
    [String.intercalate ", " pks, table]
  (pks, fieldVars, query, args)

/-! ## Validation and the two `Query` methods -/

/-- Go: an `error` made by `errors.New(fmt.Sprintf(format, operand))`, or by
`errors.New(format)` when there is no operand. The message is kept as the format of the
source and the operand it is applied to. -/
structure GoError where
  format : String
  operand : Option Value

/-- A run-time panic: a failed unchecked type assertion `v.(target)`, `panic(text)`, or
the run-time error of comparing two interface values whose common dynamic type, that of
`v`, is not comparable. -/
inductive GoPanic where
  | typeAssertion (v : Value) (target : String)
  | message (text : String)
  | uncomparable (v : Value)

/-- Go: `type StagingNestedSearch struct`. -/
structure StagingNestedSearch where
  Table : StagingTable
  SearchBy : StagingFields

/-- Go: `type Staging struct`. `CreatedAt` is a `time.Time`, which none of the functions
here reads; it is kept as an instant counted in nanoseconds. -/
structure Staging where
  Table : StagingTable
  SearchBy : StagingFields
  Fields : StagingFields
  CreatedAt : Int

/-- Go: `Staging.Query`. -/
def Staging.Query {σ : Type} (reg : Registry σ) (s : Staging) :
    List String × List σ × Option String × List Value :=
  searchQuery reg s.Table s.SearchBy

/-- Go: `(*StagingNestedSearch).Query`. -/
def StagingNestedSearch.Query {σ : Type} (reg : Registry σ) (ns : StagingNestedSearch) :
    List String × List σ × Option String × List Value :=
  searchQuery reg ns.Table ns.SearchBy

/-- Go: the loop `for k, v := range ns.SearchBy` of `StagingNestedSearch.Valid`, over the
entries in the order the loop meets them: `some r` when the loop returns `r`, `none` when
it runs to its end. -/
def StagingNestedSearch.Valid.loop {σ : Type} (reg : Registry σ) (table : StagingTable) :
    StagingFields → Option (Bool × Option GoError)
  | [] => none
  | (k, v) :: rest =>
    if !reg.isField table k then
      some (false, some ⟨"invalid nested search searchBy key: %s", some (Value.str k)⟩)
    else
      match v with
      | Value.float _ => StagingNestedSearch.Valid.loop reg table rest
      | Value.bool _ => StagingNestedSearch.Valid.loop reg table rest
      | Value.str _ => StagingNestedSearch.Valid.loop reg table rest
      | _ => some (false, some ⟨"invalid nested search searchBy value: %v", some v⟩)

/-- Go: `(*StagingNestedSearch).Valid`. -/
def StagingNestedSearch.Valid {σ : Type} (reg : Registry σ) (ns : StagingNestedSearch) :
    Bool × Option GoError :=
  if !reg.Valid ns.Table then
    (false, some ⟨"invalid nested search table name: %s", some (Value.str ns.Table)⟩)
  else
    match StagingNestedSearch.Valid.loop reg ns.Table ns.SearchBy with
    | some r => r
    | none => (true, none)

/-- Go: `mapToNestedSearchBy`. The result `(nil, false)` is `none`, the result
`(&StagingNestedSearch{..}, true)` is `some _`; the unchecked assertion `table.(string)`
panics when `table` does not hold a string. -/
def mapToNestedSearchBy (m : StagingFields) : Except GoPanic (Option StagingNestedSearch) :=
  match StagingFields.lookup m "table" with
  | none => Except.ok none
  | some table =>
    match StagingFields.lookup m "searchBy" with
    | none => Except.ok none
    | some searchByMap =>
      match searchByMap with
      | Value.map searchBy =>
        match table with
        | Value.str t => Except.ok (some ⟨t, searchBy⟩)
        | _ => Except.error (GoPanic.typeAssertion table "string")
      | _ => Except.ok none

/-- Go: the loop `for k, v := range s.SearchBy` of `Staging.Valid`. -/
def Staging.Valid.searchByLoop {σ : Type} (reg : Registry σ) (table : StagingTable) :
    StagingFields → Option (Bool × Option GoError)
  | [] => none
  | (k, v) :: rest =>
    if !reg.isField table k then
      some (false, some ⟨"invalid searchBy key: %s", some (Value.str k)⟩)
    else
      match v with
      | Value.float _ => Staging.Valid.searchByLoop reg table rest
      | Value.bool _ => Staging.Valid.searchByLoop reg table rest
      | Value.str _ => Staging.Valid.searchByLoop reg table rest
      | _ => some (false, some ⟨"invalid searchBy value: %v", some v⟩)

/-- Go: the loop `for k, v := range s.Fields` of `Staging.Valid`: a panic, `some r` when
the loop returns `r`, `none` when it runs to its end. -/
def Staging.Valid.fieldsLoop {σ : Type} (reg : Registry σ) (table : StagingTable) :
    StagingFields → Except GoPanic (Option (Bool × Option GoError))
  | [] => Except.ok none
  | (k, v) :: rest =>
    if !reg.isField table k then
      Except.ok (some (false, some ⟨"invalid fields key: %s", some (Value.str k)⟩))
    else
      match v with
      | Value.map m =>
        match mapToNestedSearchBy m with
        | Except.error p => Except.error p
        | Except.ok none =>
          Except.ok (some (false, some ⟨"invalid nested searchBy: %v", some v⟩))
        | Except.ok (some nestedSearchBy) =>
          Except.ok (some (StagingNestedSearch.Valid reg nestedSearchBy))
      | Value.float _ => Staging.Valid.fieldsLoop reg table rest
      | Value.bool _ => Staging.Valid.fieldsLoop reg table rest
      | Value.str _ => Staging.Valid.fieldsLoop reg table rest
      | _ => Except.ok (some (false, some ⟨"invalid fields value: %v", some v⟩))

/-- Go: `Staging.Valid`. -/
def Staging.Valid {σ : Type} (reg : Registry σ) (s : Staging) :
    Except GoPanic (Bool × Option GoError) :=
  if !reg.Valid s.Table then
    Except.ok (false, some ⟨"invalid table name: %s", some (Value.str s.Table)⟩)
  else
    match Staging.Valid.searchByLoop reg s.Table s.SearchBy with
    | some r => Except.ok r
    | none =>
      if s.Fields.length = 0 then
        Except.ok (false, some ⟨"fields is empty", none⟩)
      else
        match Staging.Valid.fieldsLoop reg s.Table s.Fields with
        | Except.error p => Except.error p
        | Except.ok (some r) => Except.ok r
        | Except.ok none => Except.ok (true, none)

/-- The values the type switches of `Valid` let pass as scalars: `float64`, `bool` and
`string`. -/
def Value.isScalar : Value → Bool
  | Value.float _ => true
  | Value.bool _ => true
  | Value.str _ => true
  | _ => false

/-- An entry of a map passes the per-entry checks of a searchBy loop on `table`: its key
is a declared field and its value is a float, bool or string. -/
def entryOK {σ : Type} (reg : Registry σ) (table : StagingTable) (p : String × Value) :
    Prop :=
  reg.isField table p.1 = true ∧ p.2.isScalar = true

/-! ## Key derivation and the comparisons of field maps -/

/-- Go: the loop `for _, pk := range s.Table.PkNames()` of `Staging.KeyString`, with the
slice `strs` built so far. `render v` stands for `fmt.Sprintf("%v", v)`. -/
def Staging.KeyString.loop (render : Value → String) (fields : StagingFields) :
    List String → List String → Except GoPanic (List String)
  | [], strs => Except.ok strs
  | pk :: pks, strs =>
    match StagingFields.lookup fields pk with
    | none => Except.error (GoPanic.message "Staging.KeyString: missing pk")
    | some v => Staging.KeyString.loop render fields pks (strs ++ [render v])

/-- Go: `Staging.KeyString`. The default formatting `%v` of package `fmt` is the parameter
`render`. -/
def Staging.KeyString {σ : Type} (render : Value → String) (reg : Registry σ)
    (s : Staging) : Except GoPanic String :=
  match Staging.KeyString.loop render s.Fields (reg.PkNames s.Table) [] with
  | Except.error p => Except.error p
  | Except.ok strs => Except.ok (String.intercalate "-" strs)

/-- Whether the `float64` with this bit pattern is a NaN: all eleven exponent bits set and
a fraction that is not zero. -/
def float64IsNaN (bits : Nat) : Bool :=
  decide ((bits / 2 ^ 52) % 2 ^ 11 = 2047) && decide (bits % 2 ^ 52 ≠ 0)

/-- Go: `x == y` on two `float64`, by their bit patterns: a NaN equals nothing, the two
zeros are equal, and any other two floats are equal when their bits are. -/
def float64Eq (x y : Nat) : Bool :=
  !float64IsNaN x && !float64IsNaN y &&
    (decide (x % 2 ^ 64 = y % 2 ^ 64) || (decide (x % 2 ^ 63 = 0) && decide (y % 2 ^ 63 = 0)))

/-- Go: `x != y` on two values of type `any`. Values of different dynamic types are
unequal; two values of one comparable dynamic type are compared by `==` of that type; two
values of one dynamic type that is not comparable (`map[string]any`, `[]any`) make the
comparison panic. -/
def Value.ne (x y : Value) : Except GoPanic Bool :=
  match x, y with
  | Value.float a, Value.float b => Except.ok (!float64Eq a b)
  | Value.bool a, Value.bool b => Except.ok (a != b)
  | Value.str a, Value.str b => Except.ok (a != b)
  | Value.int a, Value.int b => Except.ok (a != b)
  | Value.null, Value.null => Except.ok false
  | Value.map _, Value.map _ => Except.error (GoPanic.uncomparable x)
  | Value.list _, Value.list _ => Except.error (GoPanic.uncomparable x)
  | _, _ => Except.ok true

/-- Go: the loop `for k, v := range sf` of `StagingFields.Equal`: `if fields[k] != v`
returns `false`, the end of the loop returns `true`. -/
def StagingFields.Equal.loop (fields : StagingFields) : StagingFields → Except GoPanic Bool
  | [] => Except.ok true
  | (k, v) :: rest =>
    match Value.ne (StagingFields.index fields k) v with
    | Except.error p => Except.error p
    | Except.ok true => Except.ok false
    | Except.ok false => StagingFields.Equal.loop fields rest

/-- Go: `StagingFields.Equal`. -/
def StagingFields.Equal (sf fields : StagingFields) : Except GoPanic Bool :=
  if sf.length ≠ fields.length then Except.ok false
  else StagingFields.Equal.loop fields sf

/-- Go: the loop `for k, v := range sf` of `StagingFields.ExistIn`. -/
def StagingFields.ExistIn.loop (fields : StagingFields) :
    StagingFields → Except GoPanic Bool
  | [] => Except.ok true
  | (k, v) :: rest =>
    match Value.ne (StagingFields.index fields k) v with
    | Except.error p => Except.error p
    | Except.ok true => Except.ok false
    | Except.ok false => StagingFields.ExistIn.loop fields rest

/-- Go: `StagingFields.ExistIn`. -/
def StagingFields.ExistIn (sf fields : StagingFields) : Except GoPanic Bool :=
  StagingFields.ExistIn.loop fields sf

/-- Spec, FieldMap: strict value equality with no type coercion, on the comparable values
of a field map: two floats, two booleans or two strings that are equal. -/
def Value.strictEq : Value → Value → Bool
  | Value.float a, Value.float b => float64Eq a b
  | Value.bool a, Value.bool b => a == b
  | Value.str a, Value.str b => a == b
  | _, _ => false

/-! ## The compiled search, as the spec words it -/

/-- Spec 4.3, step 2: for each key at position `i`, counted from `start`, the predicate
`"<key> = $<i>"`. -/
def predicatesFrom : Nat → List String → List String
  | _, [] => []
  | start, k :: ks => (k ++ " = $" ++ toString start) :: predicatesFrom (start + 1) ks

/-- The entries of a map taken in ascending order of their keys. -/
def sortedEntries (searchBy : StagingFields) : StagingFields :=
  (sortStrings (StagingFields.keys searchBy)).map
    (fun k => (k, StagingFields.index searchBy k))

/-- Spec 4.3, step 5: the query text
`SELECT <pk1, pk2, ...> FROM <table> WHERE <predicate1> AND <predicate2> ...`. -/
def specQueryText (pks : List String) (table : StagingTable) (predicates : List String) :
    String :=
  "SELECT " ++ String.intercalate ", " pks ++ " FROM " ++ table ++ " WHERE " ++
    String.intercalate " AND " predicates

/-! ## A registry to evaluate on -/

/-- The registry of the scenarios of the spec (section 8): table `voters` with fields
`id`, `name`, `district`, `rep` and primary key `id`; table `reps` with field `id` and
primary key `id`; table `T` with fields `a`, `b`, `id` and primary key `id`. The scan
variables are numbered slots. -/
def scenarioRegistry : Registry Nat where
  Valid := fun t => decide (t ∈ ["voters", "reps", "T"])
  isField := fun t k =>
    if t = "voters" then decide (k ∈ ["id", "name", "district", "rep"])
    else if t = "reps" then decide (k ∈ ["id"])
    else if t = "T" then decide (k ∈ ["a", "b", "id"])
    else false
  PkNames := fun t => if t ∈ ["voters", "reps", "T"] then ["id"] else []
  PkVars := fun t => if t ∈ ["voters", "reps", "T"] then [0] else []

/-- The search of the spec's round-trip property, `{"b": 2, "a": 1}`, met in the order
`b`, `a`. The floats are the bit patterns of `2.0` and `1.0`. -/
def searchByBA : StagingFields :=
  [("b", Value.float 0x4000000000000000), ("a", Value.float 0x3FF0000000000000)]

/-- The same map met in the order `a`, `b`. -/
def searchByAB : StagingFields :=
  [("a", Value.float 0x3FF0000000000000), ("b", Value.float 0x4000000000000000)]

/-- The nested search descriptor `{"table": "reps", "searchBy": {"id": 5}}` of the spec's
scenario (the float is the bit pattern of `5.0`). -/
def nestedReps : Value :=
  Value.map [("table", Value.str "reps"),
    ("searchBy", Value.map [("id", Value.float 0x4014000000000000)])]

/-- The spec's scenario `Staging{table: voters, searchBy: {district: "A"},
fields: {name: "X", id: 1.0}}`. -/
def stagingVoters : Staging :=
  { Table := "voters"
    SearchBy := [("district", Value.str "A")]
    Fields := [("name", Value.str "X"), ("id", Value.float 0x3FF0000000000000)]
    CreatedAt := 0 }

/-- The scenario with fields `{"rep": <nested search on reps>, "bogus": 1.0}`, where
`bogus` is not a field of `voters`, met in the order `rep`, `bogus`. -/
def stagingRepBogus : Staging :=
  { stagingVoters with
    Fields := [("rep", nestedReps), ("bogus", Value.float 0x3FF0000000000000)] }

/-- The same Staging with its fields met in the order `bogus`, `rep`. -/
def stagingBogusRep : Staging :=
  { stagingVoters with
    Fields := [("bogus", Value.float 0x3FF0000000000000), ("rep", nestedReps)] }

/-- A Staging on `voters` with no fields and the undeclared searchBy key `bogus`. -/
def stagingNoFieldsBadSearch : Staging :=
  { Table := "voters"
    SearchBy := [("bogus", Value.float 0x3FF0000000000000)]
    Fields := []
    CreatedAt := 0 }

/-- A Staging on `voters` with no fields and a valid searchBy. -/
def stagingNoFields : Staging :=
  { stagingVoters with Fields := [] }

/-- A Staging on the unknown table `ghosts`. -/
def stagingGhosts : Staging :=
  { stagingVoters with Table := "ghosts" }

/-- A Staging on `voters` whose only fields entry holds a well-shaped nested search under
the undeclared key `bogus`. -/
def stagingNestedUnderBogus : Staging :=
  { stagingVoters with Fields := [("bogus", nestedReps)] }

/-- A Staging on `voters` whose fields are met in the order `name`, `rep`, `bogus`: a
scalar, a well-shaped nested search under a declared key, an undeclared key. -/
def stagingNameRepBogus : Staging :=
  { stagingVoters with
    Fields := [("name", Value.str "X"), ("rep", nestedReps),
      ("bogus", Value.float 0x3FF0000000000000)] }

/-- A Staging on `voters` whose fields entry `rep` holds the map
`{"table": 5.0, "searchBy": {}}`: a map-valued searchBy next to a table that is not a
string. -/
def stagingNumberTable : Staging :=
  { stagingVoters with
    Fields := [("rep", Value.map [("table", Value.float 0x4014000000000000),
      ("searchBy", Value.map [])])] }

/-- A Staging on `voters` whose fields entry `rep` holds the map `{"table": "reps"}`, the
spec's example of a nested search without searchBy. -/
def stagingNoSearchBy : Staging :=
  { stagingVoters with Fields := [("rep", Value.map [("table", Value.str "reps")])] }

/-- The nested search `{table: T, searchBy: {"b": 2, "a": 1}}`. -/
def nestedSearchT : StagingNestedSearch :=
  { Table := "T", SearchBy := searchByBA }

/-- A Staging on `T` with the searchBy `{"b": 2, "a": 1}` and the fields `{id: 1.0}`. -/
def stagingT : Staging :=
  { Table := "T"
    SearchBy := searchByBA
    Fields := [("id", Value.float 0x3FF0000000000000)]
    CreatedAt := 0 }

/-- The field map `{"x": nil}` (JSON `{"x": null}`). -/
def fieldsXNil : StagingFields := [("x", Value.null)]

/-- The field map `{"y": 1.0}`. -/
def fieldsYOne : StagingFields := [("y", Value.float 0x3FF0000000000000)]

/-- The field map `{"rep": {"table": "reps", "searchBy": {"id": 5}}}`, a fields map with a
nested search. -/
def fieldsRep : StagingFields := [("rep", nestedReps)]

/-- The field map `{"rep": <nested search>, "id": 1.0}`. -/
def fieldsRepId : StagingFields :=
  [("rep", nestedReps), ("id", Value.float 0x3FF0000000000000)]

/-- The field map `{"x": NaN}` (the quiet NaN `0x7FF8000000000000`). -/
def fieldsXNaN : StagingFields := [("x", Value.float 0x7FF8000000000000)]

/-- The field map `{"x": 1.0}` of the spec's examples. -/
def fieldsXOne : StagingFields := [("x", Value.float 0x3FF0000000000000)]

/-- The field map `{"x": "1"}`. -/
def fieldsXStr : StagingFields := [("x", Value.str "1")]

/-- The field map `{"x": 2.0}`. -/
def fieldsXTwo : StagingFields := [("x", Value.float 0x4000000000000000)]

/-- The field map `{"x": 1.0, "y": 2.0}`. -/
def fieldsXOneYTwo : StagingFields :=
  [("x", Value.float 0x3FF0000000000000), ("y", Value.float 0x4000000000000000)]

/-- A rendering to evaluate `KeyString` on. It agrees with the `%v` of `fmt` on strings
(printed as they are), on booleans (`true`, `false`) and on the floats `1.0`, `2.0` and
`5.0` of the scenarios (`1`, `2`, `5`); every other value is outside this table and gets
the placeholder `?`. -/
def scenarioRender : Value → String
  | Value.str s => s
  | Value.bool b => if b then "true" else "false"
  | Value.float bits =>
    if bits = 0x3FF0000000000000 then "1"
    else if bits = 0x4000000000000000 then "2"
    else if bits = 0x4014000000000000 then "5"
    else "?"
  | _ => "?"

/-- A Staging on `voters` with the single field `name`: it holds no value for the primary
key `id`. -/
def stagingNameOnly : Staging :=
  { stagingVoters with Fields := [("name", Value.str "X")] }

/-- A registry with one table, `log`, that declares the field `msg` and has no primary
key. -/
def registryNoPk : Registry Nat where
  Valid := fun t => decide (t = "log")
  isField := fun t k => decide (t = "log") && decide (k = "msg")
  PkNames := fun _ => []
  PkVars := fun _ => []

/-- A Staging on the table `log` of `registryNoPk`. -/
def stagingLog : Staging :=
  { Table := "log"
    SearchBy := [("msg", Value.str "hi")]
    Fields := [("msg", Value.str "hi")]
    CreatedAt := 0 }

/-- The nested search descriptor `{"table": "ghosts", "searchBy": {}}`, on a table the
scenario registry does not know. -/
def nestedGhosts : Value :=
  Value.map [("table", Value.str "ghosts"), ("searchBy", Value.map [])]

/-- A Staging on `voters` whose fields hold two nested searches, a valid one under `rep`
and one on an unknown table under `district`, met in the order `rep`, `district`. -/
def stagingRepDistrict : Staging :=
  { stagingVoters with Fields := [("rep", nestedReps), ("district", nestedGhosts)] }

/-- The same Staging with its fields met in the order `district`, `rep`. -/
def stagingDistrictRep : Staging :=
  { stagingVoters with Fields := [("district", nestedGhosts), ("rep", nestedReps)] }

/-- The search `{"b": 2.0, "a%d": 1.0}`, whose key `a%d` holds a `%`. -/
def searchByPercent : StagingFields :=
  [("b", Value.float 0x4000000000000000), ("a%d", Value.float 0x3FF0000000000000)]

/-! ## The order `sort.Strings` sorts by -/

theorem stringLess_iff_lt (a b : List Char) : stringLess a b = true ↔ a < b := by
  induction a generalizing b with
  | nil =>
    cases b with
    | nil => simp [stringLess]
    | cons y ys => simpa [stringLess] using List.nil_lt_cons y ys
  | cons x xs ih =>
    cases b with
    | nil => simp [stringLess]
    | cons y ys =>
      simp only [stringLess]
      by_cases h1 : x < y
      · simpa [h1] using (List.Lex.rel h1 : List.Lex (· < ·) (x :: xs) (y :: ys))
      · by_cases h2 : y < x
        · have h3 : ¬ (x :: xs < y :: ys) :=
            lt_asymm (List.Lex.rel h2 : List.Lex (· < ·) (y :: ys) (x :: xs))
          simpa [h1, h2] using h3
        · have : x = y := le_antisymm (not_lt.mp h2) (not_lt.mp h1)
          subst this
          simp only [h1, if_false, ih]
          exact (List.Lex.cons_iff (r := (· < ·))).symm

theorem stringLE_iff_le (a b : String) : stringLE a b ↔ a ≤ b := by
  unfold stringLE
  rw [← not_lt, String.lt_iff_toList_lt, ← stringLess_iff_lt]
  simp [String.toList]

theorem stringLE_eq_le : stringLE = (fun a b : String => a ≤ b) := by
  funext a b
  exact propext (stringLE_iff_le a b)

theorem sortStrings_eq (l : List String) :
    sortStrings l = l.insertionSort (fun a b => a ≤ b) := by
  unfold sortStrings
  congr 1
  exact stringLE_eq_le

theorem sortStrings_perm (l : List String) : (sortStrings l).Perm l := by
  rw [sortStrings_eq]
  exact List.perm_insertionSort _ l

theorem sortStrings_sorted_le (l : List String) :
    (sortStrings l).Sorted (fun a b => a ≤ b) := by
  rw [sortStrings_eq]
  exact List.sorted_insertionSort _ l

theorem sortStrings_sorted_lt (l : List String) (hnd : l.Nodup) :
    (sortStrings l).Sorted (fun a b => a < b) :=
  (sortStrings_sorted_le l).lt_of_le ((sortStrings_perm l).nodup_iff.mpr hnd)

theorem sortStrings_congr {l l' : List String} (h : l.Perm l') :
    sortStrings l = sortStrings l' :=
  List.eq_of_perm_of_sorted
    (((sortStrings_perm l).trans h).trans (sortStrings_perm l').symm)
    (sortStrings_sorted_le l) (sortStrings_sorted_le l')

/-! ## Maps as association lists -/

theorem lookup_of_mem {m : StagingFields} (hnd : (StagingFields.keys m).Nodup)
    {k : String} {v : Value} (h : (k, v) ∈ m) : StagingFields.lookup m k = some v := by
  induction m with
  | nil => simp at h
  | cons p rest ih =>
    obtain ⟨k', v'⟩ := p
    simp only [StagingFields.keys, List.map_cons, List.nodup_cons, List.mem_map,
      not_exists, not_and] at hnd
    rcases List.mem_cons.mp h with h | h
    · cases h
      simp [StagingFields.lookup]
    · have hne : k' ≠ k := fun e => hnd.1 (k, v) h e.symm
      simp only [StagingFields.lookup, hne, if_false]
      exact ih hnd.2 h

theorem index_of_mem {m : StagingFields} (hnd : (StagingFields.keys m).Nodup)
    {k : String} {v : Value} (h : (k, v) ∈ m) : StagingFields.index m k = v := by
  simp [StagingFields.index, lookup_of_mem hnd h]

theorem lookup_congr {m m' : StagingFields} (hnd : (StagingFields.keys m).Nodup)
    (h : m.Perm m') (k : String) : StagingFields.lookup m k = StagingFields.lookup m' k := by
  have hnd' : (StagingFields.keys m').Nodup := (h.map Prod.fst).nodup_iff.mp hnd
  have key : ∀ (a b : StagingFields), (StagingFields.keys b).Nodup →
      (∀ p, p ∈ a → p ∈ b) → ∀ v, StagingFields.lookup a k = some v →
      StagingFields.lookup b k = some v := by
    intro a b hb hab v hv
    apply lookup_of_mem hb
    apply hab
    clear hab hb
    induction a with
    | nil => simp [StagingFields.lookup] at hv
    | cons p rest ih =>
      obtain ⟨k', v'⟩ := p
      simp only [StagingFields.lookup] at hv
      by_cases e : k' = k
      · simp only [e, if_true, Option.some.injEq] at hv
        simp [e, hv]
      · simp only [e, if_false] at hv
        exact List.mem_cons_of_mem _ (ih hv)
  cases h1 : StagingFields.lookup m k with
  | some v => exact (key m m' hnd' (fun p hp => h.subset hp) v h1).symm
  | none =>
    cases h2 : StagingFields.lookup m' k with
    | none => rfl
    | some v =>
      have := key m' m hnd (fun p hp => h.symm.subset hp) v h2
      rw [h1] at this
      cases this

theorem index_congr {m m' : StagingFields} (hnd : (StagingFields.keys m).Nodup)
    (h : m.Perm m') (k : String) : StagingFields.index m k = StagingFields.index m' k := by
  simp [StagingFields.index, lookup_congr hnd h k]

theorem sortedEntries_perm {m : StagingFields} (hnd : (StagingFields.keys m).Nodup) :
    (sortedEntries m).Perm m := by
  have h1 : (sortedEntries m).Perm
      ((StagingFields.keys m).map (fun k => (k, StagingFields.index m k))) :=
    (sortStrings_perm _).map _
  have h2 : (StagingFields.keys m).map (fun k => (k, StagingFields.index m k)) = m := by
    unfold StagingFields.keys
    rw [List.map_map]
    conv_rhs => rw [← List.map_id m]
    apply List.map_congr_left
    rintro ⟨k, v⟩ hp
    simp [index_of_mem hnd hp]
  rw [h2] at h1
  exact h1

theorem sortedEntries_keys (m : StagingFields) :
    (sortedEntries m).map Prod.fst = sortStrings (StagingFields.keys m) := by
  simp [sortedEntries, List.map_map, Function.comp_def]

/-! ## The loop of `searchQuery` in closed form -/

theorem searchQuery_loop_eq (searchBy : StagingFields) (ks : List String)
    (wh : List String) (args : List Value) (i : Nat) :
    searchQuery.loop searchBy ks (wh, args, i) =
      (wh ++ predicatesFrom i ks, args ++ ks.map (StagingFields.index searchBy),
        i + ks.length) := by
  induction ks generalizing wh args i with
  | nil => simp [searchQuery.loop, predicatesFrom]
  | cons k ks ih =>
    simp only [searchQuery.loop, ih, predicatesFrom, List.map_cons, List.length_cons,
      List.append_assoc, List.singleton_append]
    simp [Nat.add_comm, Nat.add_left_comm]

theorem whereList_eq (searchBy : StagingFields) :
    searchQuery.whereList searchBy =
      predicatesFrom 1 (sortStrings (StagingFields.keys searchBy)) := by
  simp [searchQuery.whereList, searchQuery_loop_eq]

theorem argList_eq (searchBy : StagingFields) :
    searchQuery.argList searchBy = (sortedEntries searchBy).map Prod.snd := by
  simp [searchQuery.argList, searchQuery_loop_eq, sortedEntries, List.map_map,
    Function.comp_def]

theorem predicatesFrom_length (start : Nat) (ks : List String) :
    (predicatesFrom start ks).length = ks.length := by
  induction ks generalizing start with
  | nil => rfl
  | cons k ks ih => simp [predicatesFrom, ih]

theorem predicatesFrom_getElem? (start : Nat) (ks : List String) (j : Nat) :
    (predicatesFrom start ks)[j]? =
      (ks[j]?).map (fun k => k ++ " = $" ++ toString (start + j)) := by
  induction ks generalizing start j with
  | nil => simp [predicatesFrom]
  | cons k ks ih =>
    cases j with
    | zero => simp [predicatesFrom]
    | succ j =>
      simp only [predicatesFrom, List.getElem?_cons_succ, ih]
      congr 2
      funext k
      congr 2
      omega

/-! ## Claims about `searchQuery` -/

/-- What holds of C1 on every input, of the loop of `searchQuery`: for a searchBy map with
n entries the loop builds exactly n predicates and n arguments; the entries of the map can
be listed in an order in which, for every i from 1 to n, the i-th predicate built is
`"<key> = $i"` for the key of the i-th entry and the i-th returned argument is the value
of that same entry. The predicates built are then handed to `fmt.Sprintf` as part of its
format, so this says nothing of the predicates in the returned text. -/
theorem searchQuery_loop_predicates_match_arguments {σ : Type} (reg : Registry σ)
    (table : StagingTable) (searchBy : StagingFields)
    (hnd : (StagingFields.keys searchBy).Nodup) :
    ∃ entries : StagingFields, entries.Perm searchBy ∧
      (searchQuery.whereList searchBy).length = searchBy.length ∧
      (searchQuery reg table searchBy).2.2.2.length = searchBy.length ∧
      (∀ i, i < searchBy.length → ∃ k v, entries[i]? = some (k, v) ∧
        (searchQuery.whereList searchBy)[i]? = some (k ++ " = $" ++ toString (i + 1)) ∧
        (searchQuery reg table searchBy).2.2.2[i]? = some v) ∧
      (searchQuery reg table searchBy).2.2.1 =
        Sprintf ("SELECT %s FROM %s WHERE " ++
            String.intercalate " AND " (searchQuery.whereList searchBy))
          [String.intercalate ", " (reg.PkNames table), table] ∧
      (∀ fields createdAt, Staging.Query reg ⟨table, searchBy, fields, createdAt⟩ =
        searchQuery reg table searchBy) ∧
      StagingNestedSearch.Query reg ⟨table, searchBy⟩ = searchQuery reg table searchBy := by
  have hlen : (sortedEntries searchBy).length = searchBy.length :=
    (sortedEntries_perm hnd).length_eq
  have hklen : (sortStrings (StagingFields.keys searchBy)).length = searchBy.length := by
    rw [← sortedEntries_keys, List.length_map, hlen]
  refine ⟨sortedEntries searchBy, sortedEntries_perm hnd, ?_, ?_, ?_, rfl,
    fun _ _ => rfl, rfl⟩
  · rw [whereList_eq, predicatesFrom_length, hklen]
  · show (searchQuery.argList searchBy).length = _
    rw [argList_eq, List.length_map, hlen]
  · intro i hi
    have hi' : i < (sortedEntries searchBy).length := by rw [hlen]; exact hi
    refine ⟨((sortedEntries searchBy)[i]).1, ((sortedEntries searchBy)[i]).2, ?_, ?_, ?_⟩
    · simp [List.getElem?_eq_getElem hi']
    · rw [whereList_eq, predicatesFrom_getElem?, ← sortedEntries_keys, List.getElem?_map,
        List.getElem?_eq_getElem hi']
      simp [Nat.add_comm]
    · show (searchQuery.argList searchBy)[i]? = _
      rw [argList_eq, List.getElem?_map, List.getElem?_eq_getElem hi']
      rfl

/-- C1, at the failing input: for the search `{"b": 2.0, "a%d": 1.0}` on table `T`,
`searchQuery` returns the two arguments `[1.0, 2.0]`, the value of `a%d` first, and the
loop builds the predicates `a%d = $1` and `b = $2`; but the text returned is
`SELECT id FROM T WHERE a%!d(MISSING) = $1 AND b = $2`: the predicate emitted at
placeholder `$1` is not `"<key> = $1"` for the key `a%d` of the first argument, and
`a%d = $1` occurs nowhere in the text. -/
theorem searchQuery_percent_key_predicate_not_emitted :
    (searchQuery scenarioRegistry "T" searchByPercent).2.2.2 =
      [Value.float 0x3FF0000000000000, Value.float 0x4000000000000000] ∧
    StagingFields.index searchByPercent "a%d" = Value.float 0x3FF0000000000000 ∧
    searchQuery.whereList searchByPercent = ["a%d = $1", "b = $2"] ∧
    (searchQuery scenarioRegistry "T" searchByPercent).2.2.1 =
      some "SELECT id FROM T WHERE a%!d(MISSING) = $1 AND b = $2" ∧
    ¬ ("a%d = $1".data <:+:
      "SELECT id FROM T WHERE a%!d(MISSING) = $1 AND b = $2".data) ∧
    (Staging.Query scenarioRegistry ⟨"T", searchByPercent, [], 0⟩).2.2.1 =
      some "SELECT id FROM T WHERE a%!d(MISSING) = $1 AND b = $2" ∧
    (StagingNestedSearch.Query scenarioRegistry ⟨"T", searchByPercent⟩).2.2.1 =
      some "SELECT id FROM T WHERE a%!d(MISSING) = $1 AND b = $2" := by
  refine ⟨rfl, rfl, by decide, by decide, by decide, by decide, by decide⟩

/-- C2: for every table and every searchBy map, the argument list returned by
`searchQuery` is the list of the values of the map's entries taken in ascending order of
their keys, and the whole result (query text and argument list included) is the same for
every order in which the same entries are met. -/
theorem searchQuery_arguments_sorted_order_independent {σ : Type} (reg : Registry σ)
    (table : StagingTable) (searchBy searchBy' : StagingFields)
    (hnd : (StagingFields.keys searchBy).Nodup) (hperm : searchBy'.Perm searchBy) :
    (∃ entries : StagingFields, entries.Perm searchBy ∧
      (entries.map Prod.fst).Sorted (fun a b => a < b) ∧
      (searchQuery reg table searchBy).2.2.2 = entries.map Prod.snd) ∧
    searchQuery reg table searchBy' = searchQuery reg table searchBy := by
  constructor
  · refine ⟨sortedEntries searchBy, sortedEntries_perm hnd, ?_, argList_eq searchBy⟩
    rw [sortedEntries_keys]
    exact sortStrings_sorted_lt _ hnd
  · have hk : sortStrings (StagingFields.keys searchBy') =
        sortStrings (StagingFields.keys searchBy) :=
      sortStrings_congr (hperm.map Prod.fst)
    have hw : searchQuery.whereList searchBy' = searchQuery.whereList searchBy := by
      rw [whereList_eq, whereList_eq, hk]
    have ha : searchQuery.argList searchBy' = searchQuery.argList searchBy := by
      rw [argList_eq, argList_eq, sortedEntries, sortedEntries, hk]
      simp only [List.map_map]
      apply List.map_congr_left
      intro k _
      exact (index_congr hnd hperm.symm k).symm
    simp only [searchQuery, hw, ha]

/-- C2, at the spec's round trip: the search `{"b": 2, "a": 1}` on table `T` (primary key
`id`), met as `b`, `a` or as `a`, `b`, compiles to the arguments `[1, 2]` and the text
`SELECT id FROM T WHERE a = $1 AND b = $2`. -/
theorem searchQuery_arguments_sorted_order_independent_witness :
    ((StagingFields.keys searchByAB).Nodup ∧ searchByBA.Perm searchByAB) ∧
    ((∃ entries : StagingFields, entries.Perm searchByAB ∧
      (entries.map Prod.fst).Sorted (fun a b => a < b) ∧
      (searchQuery scenarioRegistry "T" searchByAB).2.2.2 = entries.map Prod.snd) ∧
    searchQuery scenarioRegistry "T" searchByBA =
      searchQuery scenarioRegistry "T" searchByAB) ∧
    searchQuery scenarioRegistry "T" searchByBA =
      (["id"], [0], some "SELECT id FROM T WHERE a = $1 AND b = $2",
        [Value.float 0x3FF0000000000000, Value.float 0x4000000000000000]) :=
  ⟨⟨by decide, List.Perm.swap _ _ _⟩,
    searchQuery_arguments_sorted_order_independent scenarioRegistry "T" searchByAB
      searchByBA (by decide) (List.Perm.swap _ _ _),
    rfl⟩

/-- C3, at the failing input: with the key `a%d` the predicate `a%d = $1` becomes part of
the format string of the outer `fmt.Sprintf`, which has no operand left for the verb `%d`:
the text returned is `SELECT id FROM T WHERE a%!d(MISSING) = $1`, not the text of the spec,
`SELECT id FROM T WHERE a%d = $1`. With the key `a%%` the text returned has `a% = $1`. -/
theorem searchQuery_percent_key_text :
    (searchQuery scenarioRegistry "T" [("a%d", Value.float 0x3FF0000000000000)]).2.2.1 =
      some "SELECT id FROM T WHERE a%!d(MISSING) = $1" ∧
    specQueryText (scenarioRegistry.PkNames "T") "T"
        (predicatesFrom 1 (sortStrings ["a%d"])) =
      "SELECT id FROM T WHERE a%d = $1" ∧
    (searchQuery scenarioRegistry "T" [("a%%", Value.float 0x3FF0000000000000)]).2.2.1 =
      some "SELECT id FROM T WHERE a% = $1" ∧
    specQueryText (scenarioRegistry.PkNames "T") "T"
        (predicatesFrom 1 (sortStrings ["a%%"])) =
      "SELECT id FROM T WHERE a%% = $1" := by
  refine ⟨by decide, by decide, by decide, by decide⟩

/-! ## The query text when no key holds a `%` -/

theorem ite_ne_of_ne {p : Prop} [Decidable p] {a b c : Char} (ha : a ≠ c) (hb : b ≠ c) :
    (if p then a else b) ≠ c := by
  split <;> assumption

theorem digitChar_ne_percent (n : Nat) : Nat.digitChar n ≠ '%' := by
  unfold Nat.digitChar
  repeat' apply ite_ne_of_ne
  all_goals decide

theorem toDigitsCore_no_percent (fuel n : Nat) (ds : List Char) (h : '%' ∉ ds) :
    '%' ∉ Nat.toDigitsCore 10 fuel n ds := by
  induction fuel generalizing n ds with
  | zero => simpa [Nat.toDigitsCore] using h
  | succ fuel ih =>
    have hd : '%' ∉ Nat.digitChar (n % 10) :: ds := by
      simp only [List.mem_cons, not_or]
      exact ⟨fun e => digitChar_ne_percent _ e.symm, h⟩
    simp only [Nat.toDigitsCore]
    split
    · exact hd
    · exact ih _ _ hd

theorem toString_no_percent (n : Nat) : '%' ∉ (toString n).data := by
  show '%' ∉ (Nat.repr n).data
  unfold Nat.repr Nat.toDigits
  simpa [List.asString] using toDigitsCore_no_percent (n + 1) n [] (by simp)

theorem intercalate_go_no_percent (acc sep : String) (l : List String)
    (hacc : '%' ∉ acc.data) (hsep : '%' ∉ sep.data) (hl : ∀ a ∈ l, '%' ∉ a.data) :
    '%' ∉ (String.intercalate.go acc sep l).data := by
  induction l generalizing acc with
  | nil => simpa [String.intercalate.go] using hacc
  | cons a l ih =>
    simp only [String.intercalate.go]
    apply ih
    · simp only [String.data_append, List.mem_append, not_or]
      exact ⟨⟨hacc, hsep⟩, hl a (List.mem_cons_self _ _)⟩
    · exact fun b hb => hl b (List.mem_cons_of_mem _ hb)

theorem intercalate_no_percent (sep : String) (l : List String)
    (hsep : '%' ∉ sep.data) (hl : ∀ a ∈ l, '%' ∉ a.data) :
    '%' ∉ (String.intercalate sep l).data := by
  cases l with
  | nil => simp [String.intercalate]
  | cons a l =>
    simp only [String.intercalate]
    exact intercalate_go_no_percent a sep l (hl a (List.mem_cons_self _ _)) hsep
      (fun b hb => hl b (List.mem_cons_of_mem _ hb))

theorem predicatesFrom_no_percent (start : Nat) (ks : List String)
    (h : ∀ k ∈ ks, '%' ∉ k.data) : ∀ a ∈ predicatesFrom start ks, '%' ∉ a.data := by
  induction ks generalizing start with
  | nil => simp [predicatesFrom]
  | cons k ks ih =>
    intro a ha
    simp only [predicatesFrom, List.mem_cons] at ha
    rcases ha with ha | ha
    · subst ha
      simp only [String.data_append, List.mem_append, not_or]
      exact ⟨⟨h k (List.mem_cons_self _ _), by decide⟩, toString_no_percent start⟩
    · exact ih (start + 1) (fun b hb => h b (List.mem_cons_of_mem _ hb)) a ha

theorem doPrintf_cons_of_ne (c : Char) (fs : List Char) (a : List FmtArg)
    (hc : c ≠ '%') : doPrintf (c :: fs) a = (doPrintf fs a).map (fun out => c :: out) := by
  rw [doPrintf.eq_def]
  simp [hc]

theorem doPrintf_percent_s (rest : List Char) (x : FmtArg) (a : List FmtArg) :
    doPrintf ('%' :: 's' :: rest) (x :: a) =
      (doPrintf rest a).map (fun out => x.data ++ out) := by
  rw [doPrintf.eq_def]
  simp

theorem doPrintf_no_percent (w : List Char) (h : '%' ∉ w) : doPrintf w [] = some w := by
  induction w with
  | nil => rfl
  | cons c w ih =>
    simp only [List.mem_cons, not_or] at h
    rw [doPrintf_cons_of_ne c w [] (fun e => h.1 e.symm), ih h.2]
    rfl

theorem doPrintf_select (pks table : String) (w : List Char) (h : '%' ∉ w) :
    doPrintf ("SELECT %s FROM %s WHERE ".data ++ w) [pks, table] =
      some ("SELECT ".data ++ pks.data ++ " FROM ".data ++ table.data ++ " WHERE ".data
        ++ w) := by
  have e1 : "SELECT %s FROM %s WHERE ".data ++ w =
      'S' :: 'E' :: 'L' :: 'E' :: 'C' :: 'T' :: ' ' :: '%' :: 's' :: ' ' :: 'F' :: 'R' ::
        'O' :: 'M' :: ' ' :: '%' :: 's' :: (" WHERE ".data ++ w) := rfl
  have h2 : '%' ∉ " WHERE ".data ++ w := by
    simp only [List.mem_append, not_or]
    exact ⟨by decide, h⟩
  rw [e1]
  repeat rw [doPrintf_cons_of_ne _ _ _ (by decide)]
  rw [doPrintf_percent_s]
  repeat rw [doPrintf_cons_of_ne _ _ _ (by decide)]
  rw [doPrintf_percent_s, doPrintf_no_percent _ h2]
  simp

/-- What holds of C3 on every input: when no searchBy key holds the character `%`, the
query text returned by `searchQuery` is exactly the text of the spec, `SELECT`, the
primary-key names joined by `, `, `FROM`, the table name, `WHERE`, and the predicates
`"<key> = $<i>"` (keys ascending, i counted from 1) joined by ` AND `. -/
theorem searchQuery_text_of_percent_free_keys {σ : Type} (reg : Registry σ)
    (table : StagingTable) (searchBy : StagingFields)
    (hkeys : ∀ k ∈ StagingFields.keys searchBy, '%' ∉ k.data) :
    (searchQuery reg table searchBy).2.2.1 =
      some (specQueryText (reg.PkNames table) table
        (predicatesFrom 1 (sortStrings (StagingFields.keys searchBy)))) := by
  have hsorted : ∀ k ∈ sortStrings (StagingFields.keys searchBy), '%' ∉ k.data :=
    fun k hk => hkeys k ((sortStrings_perm _).subset hk)
  have hw : '%' ∉ (String.intercalate " AND "
      (predicatesFrom 1 (sortStrings (StagingFields.keys searchBy)))).data :=
    intercalate_no_percent _ _ (by decide) (predicatesFrom_no_percent 1 _ hsorted)
  show Sprintf _ _ = _
  rw [whereList_eq]
  simp only [Sprintf, String.data_append, doPrintf_select _ _ _ hw, specQueryText,
    Option.map_some']
  congr 1

/-- What holds of C1 on every input whose keys hold no `%`: the entries of the map can be
listed in ascending order of their keys so that the returned arguments are their values in
that order, and the returned text is `SELECT <pks> FROM <table> WHERE` followed by the
predicates joined by ` AND `, where for every i from 1 to n the i-th predicate is
`"<key> = $i"` for the key of the i-th entry. -/
theorem searchQuery_emits_predicates_of_percent_free_keys {σ : Type} (reg : Registry σ)
    (table : StagingTable) (searchBy : StagingFields)
    (hnd : (StagingFields.keys searchBy).Nodup)
    (hkeys : ∀ k ∈ StagingFields.keys searchBy, '%' ∉ k.data) :
    ∃ (entries : StagingFields) (predicates : List String),
      entries.Perm searchBy ∧
      predicates.length = searchBy.length ∧
      (searchQuery reg table searchBy).2.2.2.length = searchBy.length ∧
      (searchQuery reg table searchBy).2.2.1 =
        some ("SELECT " ++ String.intercalate ", " (reg.PkNames table) ++ " FROM " ++ table
          ++ " WHERE " ++ String.intercalate " AND " predicates) ∧
      ∀ i, i < searchBy.length → ∃ k v, entries[i]? = some (k, v) ∧
        predicates[i]? = some (k ++ " = $" ++ toString (i + 1)) ∧
        (searchQuery reg table searchBy).2.2.2[i]? = some v := by
  obtain ⟨entries, hperm, hlen, halen, hall, _, _, _⟩ :=
    searchQuery_loop_predicates_match_arguments reg table searchBy hnd
  refine ⟨entries, searchQuery.whereList searchBy, hperm, hlen, halen, ?_, hall⟩
  rw [searchQuery_text_of_percent_free_keys reg table searchBy hkeys, whereList_eq]
  rfl

/-- C4: the query text returned by `searchQuery` does not depend on the searchBy values:
for every table and every two searchBy maps with the same keys, met in whatever order, the
predicates built and the query text returned are the same, and so are the primary-key
names and scan variables. -/
theorem searchQuery_text_independent_of_values {σ : Type} (reg : Registry σ)
    (table : StagingTable) (searchBy searchBy' : StagingFields)
    (hkeys : (StagingFields.keys searchBy).Perm (StagingFields.keys searchBy')) :
    searchQuery.whereList searchBy = searchQuery.whereList searchBy' ∧
    (searchQuery reg table searchBy).2.2.1 = (searchQuery reg table searchBy').2.2.1 ∧
    (searchQuery reg table searchBy).1 = (searchQuery reg table searchBy').1 ∧
    (searchQuery reg table searchBy).2.1 = (searchQuery reg table searchBy').2.1 := by
  have hw : searchQuery.whereList searchBy = searchQuery.whereList searchBy' := by
    rw [whereList_eq, whereList_eq, sortStrings_congr hkeys]
  exact ⟨hw, by simp only [searchQuery, hw], rfl, rfl⟩

/-- C4, at the keys `a`, `b` with the values `(1, 2)` and with the values `("x", true)`
met in the other order. -/
theorem searchQuery_text_independent_of_values_witness :
    (StagingFields.keys searchByAB).Perm
      (StagingFields.keys [("b", Value.bool true), ("a", Value.str "x")]) ∧
    (searchQuery.whereList searchByAB =
      searchQuery.whereList [("b", Value.bool true), ("a", Value.str "x")] ∧
    (searchQuery scenarioRegistry "T" searchByAB).2.2.1 =
      (searchQuery scenarioRegistry "T"
        [("b", Value.bool true), ("a", Value.str "x")]).2.2.1 ∧
    (searchQuery scenarioRegistry "T" searchByAB).1 =
      (searchQuery scenarioRegistry "T"
        [("b", Value.bool true), ("a", Value.str "x")]).1 ∧
    (searchQuery scenarioRegistry "T" searchByAB).2.1 =
      (searchQuery scenarioRegistry "T"
        [("b", Value.bool true), ("a", Value.str "x")]).2.1) :=
  ⟨List.Perm.swap _ _ _,
    searchQuery_text_independent_of_values scenarioRegistry "T" searchByAB
      [("b", Value.bool true), ("a", Value.str "x")] (List.Perm.swap _ _ _)⟩

/-! ## The loops of `Valid` -/

theorem searchByLoop_eq_none_iff {σ : Type} (reg : Registry σ) (table : StagingTable)
    (l : StagingFields) :
    Staging.Valid.searchByLoop reg table l = none ↔ ∀ p ∈ l, entryOK reg table p := by
  induction l with
  | nil => simp [Staging.Valid.searchByLoop]
  | cons p rest ih =>
    obtain ⟨k, v⟩ := p
    cases hf : reg.isField table k <;> cases v <;>
      simp [Staging.Valid.searchByLoop, entryOK, Value.isScalar, hf, ih]

theorem searchByLoop_eq_some {σ : Type} (reg : Registry σ) (table : StagingTable)
    (l : StagingFields) (r : Bool × Option GoError)
    (h : Staging.Valid.searchByLoop reg table l = some r) :
    ∃ e : GoError, r = (false, some e) ∧ e.operand ≠ none ∧
      (e.format = "invalid searchBy key: %s" ∨ e.format = "invalid searchBy value: %v") := by
  induction l with
  | nil => simp [Staging.Valid.searchByLoop] at h
  | cons p rest ih =>
    obtain ⟨k, v⟩ := p
    cases hf : reg.isField table k <;> cases v <;>
      simp only [Staging.Valid.searchByLoop, hf, Bool.not_true, Bool.not_false, if_true,
        if_false, Bool.false_eq_true, Option.some.injEq] at h <;>
      first
        | exact ih h
        | (subst h; exact ⟨_, rfl, by simp, by simp⟩)

theorem fieldsLoop_scalars {σ : Type} (reg : Registry σ) (table : StagingTable)
    (pre rest : StagingFields) (h : ∀ p ∈ pre, entryOK reg table p) :
    Staging.Valid.fieldsLoop reg table (pre ++ rest) =
      Staging.Valid.fieldsLoop reg table rest := by
  induction pre with
  | nil => rfl
  | cons p pre ih =>
    obtain ⟨k, v⟩ := p
    have hp := h (k, v) (List.mem_cons_self _ _)
    have ih' := ih (fun q hq => h q (List.mem_cons_of_mem _ hq))
    cases v <;> simp_all [Staging.Valid.fieldsLoop, entryOK, Value.isScalar]

theorem fieldsLoop_all_scalars {σ : Type} (reg : Registry σ) (table : StagingTable)
    (l : StagingFields) (h : ∀ p ∈ l, entryOK reg table p) :
    Staging.Valid.fieldsLoop reg table l = Except.ok none := by
  have := fieldsLoop_scalars reg table l [] h
  simpa [Staging.Valid.fieldsLoop] using this

/-! ## Claims about `Valid` -/

/-- C5: for every recognised table T and every Staging on T whose searchBy has only keys
declared for T with float, bool or string values, and whose fields is non-empty and has
only keys declared for T with float, bool or string values, `Staging.Valid` returns
`(true, nil)`. -/
theorem Staging_Valid_accepts_declared_scalars {σ : Type} (reg : Registry σ) (s : Staging)
    (htable : reg.Valid s.Table = true)
    (hsearch : ∀ p ∈ s.SearchBy, entryOK reg s.Table p)
    (hne : s.Fields ≠ [])
    (hfields : ∀ p ∈ s.Fields, entryOK reg s.Table p) :
    Staging.Valid reg s = Except.ok (true, none) := by
  have h1 := (searchByLoop_eq_none_iff reg s.Table s.SearchBy).mpr hsearch
  have h2 := fieldsLoop_all_scalars reg s.Table s.Fields hfields
  have h3 : s.Fields.length ≠ 0 := fun h => hne (List.length_eq_zero.mp h)
  simp [Staging.Valid, htable, h1, h2, h3]

/-- C5, at the spec's scenario: `Staging{table: voters, searchBy: {district: "A"},
fields: {name: "X", id: 1.0}}` validates. -/
theorem Staging_Valid_accepts_declared_scalars_witness :
    (scenarioRegistry.Valid stagingVoters.Table = true ∧
      (∀ p ∈ stagingVoters.SearchBy, entryOK scenarioRegistry stagingVoters.Table p) ∧
      stagingVoters.Fields ≠ [] ∧
      (∀ p ∈ stagingVoters.Fields, entryOK scenarioRegistry stagingVoters.Table p)) ∧
    Staging.Valid scenarioRegistry stagingVoters = Except.ok (true, none) :=
  have h1 : scenarioRegistry.Valid stagingVoters.Table = true := by decide
  have h2 : ∀ p ∈ stagingVoters.SearchBy,
      entryOK scenarioRegistry stagingVoters.Table p := by
    intro p hp
    simp only [stagingVoters, List.mem_singleton] at hp
    subst hp
    exact ⟨by decide, rfl⟩
  have h3 : stagingVoters.Fields ≠ [] := by simp [stagingVoters]
  have h4 : ∀ p ∈ stagingVoters.Fields,
      entryOK scenarioRegistry stagingVoters.Table p := by
    intro p hp
    simp only [stagingVoters, List.mem_cons, List.mem_singleton, List.not_mem_nil,
      or_false] at hp
    rcases hp with hp | hp <;> subst hp <;> exact ⟨by decide, rfl⟩
  ⟨⟨h1, h2, h3, h4⟩, Staging_Valid_accepts_declared_scalars scenarioRegistry stagingVoters
    h1 h2 h3 h4⟩

/-- C6: for every Staging whose searchBy contains a key not declared for its table, or a
value that is not a float, bool or string (a nested map in particular), `Staging.Valid`
returns `false` with a non-nil error, whatever fields contains and in whatever order the
entries of searchBy are met; when the table is recognised the error is one of the two
searchBy errors. -/
theorem Staging_Valid_rejects_bad_searchBy {σ : Type} (reg : Registry σ) (s : Staging)
    (hbad : ∃ p ∈ s.SearchBy, reg.isField s.Table p.1 = false ∨ p.2.isScalar = false) :
    ∃ e : GoError, Staging.Valid reg s = Except.ok (false, some e) ∧
      (reg.Valid s.Table = true →
        e.format = "invalid searchBy key: %s" ∨ e.format = "invalid searchBy value: %v") := by
  cases htable : reg.Valid s.Table with
  | false =>
    exact ⟨⟨"invalid table name: %s", some (Value.str s.Table)⟩,
      by simp [Staging.Valid, htable], by simp⟩
  | true =>
    cases hloop : Staging.Valid.searchByLoop reg s.Table s.SearchBy with
    | none =>
      exfalso
      obtain ⟨p, hp, hbad⟩ := hbad
      have := (searchByLoop_eq_none_iff reg s.Table s.SearchBy).mp hloop p hp
      rcases hbad with hbad | hbad
      · rw [this.1] at hbad; cases hbad
      · rw [this.2] at hbad; cases hbad
    | some r =>
      obtain ⟨e, hr, _, hfmt⟩ := searchByLoop_eq_some reg s.Table s.SearchBy r hloop
      exact ⟨e, by simp [Staging.Valid, htable, hloop, hr], fun _ => hfmt⟩

/-- C6, at a searchBy of the table `voters` that holds a nested map under the declared key
`rep`. -/
theorem Staging_Valid_rejects_bad_searchBy_witness :
    (∃ p ∈ ({ stagingVoters with SearchBy := [("district", Value.str "A"),
        ("rep", nestedReps)] } : Staging).SearchBy,
      scenarioRegistry.isField "voters" p.1 = false ∨ p.2.isScalar = false) ∧
    ∃ e : GoError,
      Staging.Valid scenarioRegistry { stagingVoters with SearchBy :=
        [("district", Value.str "A"), ("rep", nestedReps)] } = Except.ok (false, some e) ∧
      (scenarioRegistry.Valid "voters" = true →
        e.format = "invalid searchBy key: %s" ∨ e.format = "invalid searchBy value: %v") :=
  have h : ∃ p ∈ ({ stagingVoters with SearchBy := [("district", Value.str "A"),
        ("rep", nestedReps)] } : Staging).SearchBy,
      scenarioRegistry.isField "voters" p.1 = false ∨ p.2.isScalar = false :=
    ⟨("rep", nestedReps), by simp, Or.inr rfl⟩
  ⟨h, Staging_Valid_rejects_bad_searchBy scenarioRegistry _ h⟩

/-- C7, at the failing input: on table `voters`, the fields `{"rep": <nested search on
reps>, "bogus": 1.0}` hold the undeclared key `bogus`; met in the order `rep`, `bogus`,
`Staging.Valid` returns the result of the nested search, `(true, nil)`, and never looks at
`bogus`; met in the order `bogus`, `rep`, it rejects with the fields-key error. -/
theorem Staging_Valid_undeclared_fields_key_accepted :
    (∃ p ∈ stagingRepBogus.Fields,
      scenarioRegistry.isField stagingRepBogus.Table p.1 = false) ∧
    stagingRepBogus.Fields.Perm stagingBogusRep.Fields ∧
    Staging.Valid scenarioRegistry stagingRepBogus = Except.ok (true, none) ∧
    Staging.Valid scenarioRegistry stagingBogusRep =
      Except.ok (false, some ⟨"invalid fields key: %s", some (Value.str "bogus")⟩) :=
  ⟨⟨("bogus", Value.float 0x3FF0000000000000), by simp [stagingRepBogus], by decide⟩,
    List.Perm.swap _ _ _, rfl, rfl⟩

/-- What holds of C7 on every input: when the table is recognised, searchBy passes, and
every fields entry met before the first undeclared key has a declared key and a float,
bool or string value, `Staging.Valid` rejects with the fields-key error. -/
theorem Staging_Valid_rejects_undeclared_key_after_scalars {σ : Type} (reg : Registry σ)
    (s : Staging) (pre post : StagingFields) (k : String) (v : Value)
    (htable : reg.Valid s.Table = true)
    (hsearch : ∀ p ∈ s.SearchBy, entryOK reg s.Table p)
    (hfields : s.Fields = pre ++ (k, v) :: post)
    (hpre : ∀ p ∈ pre, entryOK reg s.Table p)
    (hk : reg.isField s.Table k = false) :
    Staging.Valid reg s =
      Except.ok (false, some ⟨"invalid fields key: %s", some (Value.str k)⟩) := by
  have h1 := (searchByLoop_eq_none_iff reg s.Table s.SearchBy).mpr hsearch
  have h2 : Staging.Valid.fieldsLoop reg s.Table s.Fields =
      Except.ok (some (false, some ⟨"invalid fields key: %s", some (Value.str k)⟩)) := by
    rw [hfields, fieldsLoop_scalars reg s.Table pre _ hpre]
    simp [Staging.Valid.fieldsLoop, hk]
  have h3 : s.Fields.length ≠ 0 := by simp [hfields]
  simp [Staging.Valid, htable, h1, h2, h3]

/-- C8, counterexample: on table `voters` with no fields and the undeclared searchBy key
`bogus`, `Staging.Valid` rejects with the searchBy-key error, not with the empty-fields
error. -/
theorem Staging_Valid_empty_fields_other_error :
    stagingNoFieldsBadSearch.Fields.length = 0 ∧
    Staging.Valid scenarioRegistry stagingNoFieldsBadSearch =
      Except.ok (false, some ⟨"invalid searchBy key: %s", some (Value.str "bogus")⟩) ∧
    Staging.Valid scenarioRegistry stagingNoFieldsBadSearch ≠
      Except.ok (false, some ⟨"fields is empty", none⟩) := by
  refine ⟨rfl, rfl, ?_⟩
  have h : Staging.Valid scenarioRegistry stagingNoFieldsBadSearch =
      Except.ok (false, some ⟨"invalid searchBy key: %s", some (Value.str "bogus")⟩) := rfl
  rw [h]
  simp

/-- C8, amended: for every Staging whose fields map has zero entries, `Staging.Valid`
returns `false` with a non-nil error, whatever searchBy contains; that error is the
empty-fields error (`"fields is empty"`) if and only if the table is recognised and every
searchBy entry has a declared key and a float, bool or string value. -/
theorem Staging_Valid_empty_fields {σ : Type} (reg : Registry σ) (s : Staging)
    (hempty : s.Fields.length = 0) :
    (∃ e : GoError, Staging.Valid reg s = Except.ok (false, some e)) ∧
    (Staging.Valid reg s = Except.ok (false, some ⟨"fields is empty", none⟩) ↔
      reg.Valid s.Table = true ∧ ∀ p ∈ s.SearchBy, entryOK reg s.Table p) := by
  cases htable : reg.Valid s.Table with
  | false =>
    exact ⟨⟨⟨"invalid table name: %s", some (Value.str s.Table)⟩,
      by simp [Staging.Valid, htable]⟩, by simp [Staging.Valid, htable]⟩
  | true =>
    cases hloop : Staging.Valid.searchByLoop reg s.Table s.SearchBy with
    | none =>
      have hall := (searchByLoop_eq_none_iff reg s.Table s.SearchBy).mp hloop
      exact ⟨⟨⟨"fields is empty", none⟩, by simp [Staging.Valid, htable, hloop, hempty]⟩,
        ⟨fun _ => ⟨rfl, hall⟩, fun _ => by simp [Staging.Valid, htable, hloop, hempty]⟩⟩
    | some r =>
      obtain ⟨e, hr, hop, _⟩ := searchByLoop_eq_some reg s.Table s.SearchBy r hloop
      have hnot : ¬ ∀ p ∈ s.SearchBy, entryOK reg s.Table p := by
        intro hall
        rw [(searchByLoop_eq_none_iff reg s.Table s.SearchBy).mpr hall] at hloop
        cases hloop
      refine ⟨⟨e, by simp [Staging.Valid, htable, hloop, hr]⟩, ?_⟩
      constructor
      · intro h
        exfalso
        simp only [Staging.Valid, htable, Bool.not_true, Bool.false_eq_true, if_false,
          hloop, hr, Except.ok.injEq, Prod.mk.injEq, Option.some.injEq, true_and] at h
        rw [h] at hop
        exact hop rfl
      · intro h
        exact absurd h.2 hnot

/-- C8 amended, at the table `voters` with searchBy `{district: "A"}` and no fields. -/
theorem Staging_Valid_empty_fields_witness :
    stagingNoFields.Fields.length = 0 ∧
    ((∃ e : GoError,
        Staging.Valid scenarioRegistry stagingNoFields = Except.ok (false, some e)) ∧
      (Staging.Valid scenarioRegistry stagingNoFields =
          Except.ok (false, some ⟨"fields is empty", none⟩) ↔
        scenarioRegistry.Valid stagingNoFields.Table = true ∧
          ∀ p ∈ stagingNoFields.SearchBy,
            entryOK scenarioRegistry stagingNoFields.Table p)) :=
  ⟨rfl, Staging_Valid_empty_fields scenarioRegistry stagingNoFields rfl⟩

/-- C9: for every Staging whose table is not recognised by the registry, `Staging.Valid`
rejects with the invalid-table error, whatever searchBy and fields contain; and
`StagingNestedSearch.Valid` rejects every nested search whose table is not recognised,
with its own invalid-table error. -/
theorem Valid_rejects_unrecognised_table {σ : Type} (reg : Registry σ) (s : Staging)
    (ns : StagingNestedSearch) :
    (reg.Valid s.Table = false →
      Staging.Valid reg s =
        Except.ok (false, some ⟨"invalid table name: %s", some (Value.str s.Table)⟩)) ∧
    (reg.Valid ns.Table = false →
      StagingNestedSearch.Valid reg ns =
        (false, some ⟨"invalid nested search table name: %s",
          some (Value.str ns.Table)⟩)) := by
  constructor
  · intro h
    simp [Staging.Valid, h]
  · intro h
    simp [StagingNestedSearch.Valid, h]

/-- C9, at the unknown table `ghosts`. -/
theorem Valid_rejects_unrecognised_table_witness :
    (scenarioRegistry.Valid stagingGhosts.Table = false ∧
      scenarioRegistry.Valid (StagingNestedSearch.mk "ghosts" []).Table = false) ∧
    Staging.Valid scenarioRegistry stagingGhosts =
      Except.ok (false, some ⟨"invalid table name: %s", some (Value.str "ghosts")⟩) ∧
    StagingNestedSearch.Valid scenarioRegistry (StagingNestedSearch.mk "ghosts" []) =
      (false, some ⟨"invalid nested search table name: %s",
        some (Value.str "ghosts")⟩) :=
  ⟨⟨by decide, by decide⟩,
    (Valid_rejects_unrecognised_table scenarioRegistry stagingGhosts
      (StagingNestedSearch.mk "ghosts" [])).1 (by decide),
    (Valid_rejects_unrecognised_table scenarioRegistry stagingGhosts
      (StagingNestedSearch.mk "ghosts" [])).2 (by decide)⟩

/-- C10, counterexample: on table `voters` (recognised, searchBy valid) the only fields
entry holds a nested search with a string table `reps` and a map searchBy, and nothing is
scanned before it; its key `bogus` is not declared, so `Staging.Valid` returns the
fields-key error, while `StagingNestedSearch{reps, {id: 5}}.Valid` returns `(true, nil)`. -/
theorem Staging_Valid_nested_under_undeclared_key :
    scenarioRegistry.Valid stagingNestedUnderBogus.Table = true ∧
    (∀ p ∈ stagingNestedUnderBogus.SearchBy,
      entryOK scenarioRegistry stagingNestedUnderBogus.Table p) ∧
    stagingNestedUnderBogus.Fields =
      [] ++ ("bogus", Value.map [("table", Value.str "reps"),
        ("searchBy", Value.map [("id", Value.float 0x4014000000000000)])]) :: [] ∧
    StagingNestedSearch.Valid scenarioRegistry
      ⟨"reps", [("id", Value.float 0x4014000000000000)]⟩ = (true, none) ∧
    Staging.Valid scenarioRegistry stagingNestedUnderBogus =
      Except.ok (false, some ⟨"invalid fields key: %s", some (Value.str "bogus")⟩) ∧
    Staging.Valid scenarioRegistry stagingNestedUnderBogus ≠
      Except.ok (StagingNestedSearch.Valid scenarioRegistry
        ⟨"reps", [("id", Value.float 0x4014000000000000)]⟩) := by
  have h : Staging.Valid scenarioRegistry stagingNestedUnderBogus =
      Except.ok (false, some ⟨"invalid fields key: %s", some (Value.str "bogus")⟩) := rfl
  have h' : StagingNestedSearch.Valid scenarioRegistry
      ⟨"reps", [("id", Value.float 0x4014000000000000)]⟩ = (true, none) := rfl
  refine ⟨by decide, ?_, rfl, h', h, ?_⟩
  · intro p hp
    simp only [stagingNestedUnderBogus, stagingVoters, List.mem_singleton] at hp
    subst hp
    exact ⟨by decide, rfl⟩
  · rw [h, h']
    simp

/-- C10, amended: for every Staging with a recognised table and valid searchBy, if the
first map-shaped value met when scanning fields stands under a declared key and has a
string-valued `"table"` t and a map-valued `"searchBy"` m, and every entry scanned before
it has a declared key and a float, bool or string value, then `Staging.Valid` returns
exactly the result of `StagingNestedSearch{t, m}.Valid`, whatever the remaining fields
entries are. -/
theorem Staging_Valid_returns_first_nested_result {σ : Type} (reg : Registry σ)
    (s : Staging) (pre post : StagingFields) (k : String) (nested : StagingFields)
    (t : String) (m : StagingFields)
    (htable : reg.Valid s.Table = true)
    (hsearch : ∀ p ∈ s.SearchBy, entryOK reg s.Table p)
    (hfields : s.Fields = pre ++ (k, Value.map nested) :: post)
    (hpre : ∀ p ∈ pre, entryOK reg s.Table p)
    (hk : reg.isField s.Table k = true)
    (ht : StagingFields.lookup nested "table" = some (Value.str t))
    (hm : StagingFields.lookup nested "searchBy" = some (Value.map m)) :
    Staging.Valid reg s = Except.ok (StagingNestedSearch.Valid reg ⟨t, m⟩) := by
  have h1 := (searchByLoop_eq_none_iff reg s.Table s.SearchBy).mpr hsearch
  have h2 : Staging.Valid.fieldsLoop reg s.Table s.Fields =
      Except.ok (some (StagingNestedSearch.Valid reg ⟨t, m⟩)) := by
    rw [hfields, fieldsLoop_scalars reg s.Table pre _ hpre]
    simp [Staging.Valid.fieldsLoop, hk, mapToNestedSearchBy, ht, hm]
  have h3 : s.Fields.length ≠ 0 := by simp [hfields]
  simp [Staging.Valid, htable, h1, h2, h3]

/-- C10 amended, at fields met in the order `name`, `rep`, `bogus`: the nested search
under `rep` decides, and the undeclared key `bogus` after it is not looked at. -/
theorem Staging_Valid_returns_first_nested_result_witness :
    (scenarioRegistry.Valid stagingNameRepBogus.Table = true ∧
      (∀ p ∈ stagingNameRepBogus.SearchBy,
        entryOK scenarioRegistry stagingNameRepBogus.Table p) ∧
      stagingNameRepBogus.Fields =
        [("name", Value.str "X")] ++
          ("rep", Value.map [("table", Value.str "reps"),
            ("searchBy", Value.map [("id", Value.float 0x4014000000000000)])]) ::
          [("bogus", Value.float 0x3FF0000000000000)] ∧
      (∀ p ∈ [("name", Value.str "X")],
        entryOK scenarioRegistry stagingNameRepBogus.Table p) ∧
      scenarioRegistry.isField stagingNameRepBogus.Table "rep" = true ∧
      StagingFields.lookup [("table", Value.str "reps"),
          ("searchBy", Value.map [("id", Value.float 0x4014000000000000)])] "table" =
        some (Value.str "reps") ∧
      StagingFields.lookup [("table", Value.str "reps"),
          ("searchBy", Value.map [("id", Value.float 0x4014000000000000)])] "searchBy" =
        some (Value.map [("id", Value.float 0x4014000000000000)])) ∧
    Staging.Valid scenarioRegistry stagingNameRepBogus =
      Except.ok (StagingNestedSearch.Valid scenarioRegistry
        ⟨"reps", [("id", Value.float 0x4014000000000000)]⟩) :=
  have h2 : ∀ p ∈ stagingNameRepBogus.SearchBy,
      entryOK scenarioRegistry stagingNameRepBogus.Table p := by
    intro p hp
    simp only [stagingNameRepBogus, stagingVoters, List.mem_singleton] at hp
    subst hp
    exact ⟨by decide, rfl⟩
  have h4 : ∀ p ∈ [("name", Value.str "X")],
      entryOK scenarioRegistry stagingNameRepBogus.Table p := by
    intro p hp
    simp only [List.mem_singleton] at hp
    subst hp
    exact ⟨by decide, rfl⟩
  ⟨⟨by decide, h2, rfl, h4, by decide, rfl, rfl⟩,
    Staging_Valid_returns_first_nested_result scenarioRegistry stagingNameRepBogus
      [("name", Value.str "X")] [("bogus", Value.float 0x3FF0000000000000)] "rep"
      [("table", Value.str "reps"),
        ("searchBy", Value.map [("id", Value.float 0x4014000000000000)])]
      "reps" [("id", Value.float 0x4014000000000000)]
      (by decide) h2 rfl h4 (by decide) rfl rfl⟩

/-! ## Nested searches -/

theorem nestedLoop_eq_none_iff {σ : Type} (reg : Registry σ) (table : StagingTable)
    (l : StagingFields) :
    StagingNestedSearch.Valid.loop reg table l = none ↔ ∀ p ∈ l, entryOK reg table p := by
  induction l with
  | nil => simp [StagingNestedSearch.Valid.loop]
  | cons p rest ih =>
    obtain ⟨k, v⟩ := p
    cases hf : reg.isField table k <;> cases v <;>
      simp [StagingNestedSearch.Valid.loop, entryOK, Value.isScalar, hf, ih]

theorem nestedLoop_eq_some {σ : Type} (reg : Registry σ) (table : StagingTable)
    (l : StagingFields) (r : Bool × Option GoError)
    (h : StagingNestedSearch.Valid.loop reg table l = some r) :
    ∃ e : GoError, r = (false, some e) := by
  induction l with
  | nil => simp [StagingNestedSearch.Valid.loop] at h
  | cons p rest ih =>
    obtain ⟨k, v⟩ := p
    cases hf : reg.isField table k <;> cases v <;>
      simp only [StagingNestedSearch.Valid.loop, hf, Bool.not_true, Bool.not_false, if_true,
        if_false, Bool.false_eq_true, Option.some.injEq] at h <;>
      first
        | exact ih h
        | (subst h; exact ⟨_, rfl⟩)

theorem nestedValid_fst_iff {σ : Type} (reg : Registry σ) (ns : StagingNestedSearch) :
    (StagingNestedSearch.Valid reg ns).1 = true ↔
      reg.Valid ns.Table = true ∧ ∀ p ∈ ns.SearchBy, entryOK reg ns.Table p := by
  cases htable : reg.Valid ns.Table with
  | false => simp [StagingNestedSearch.Valid, htable]
  | true =>
    cases hloop : StagingNestedSearch.Valid.loop reg ns.Table ns.SearchBy with
    | none =>
      have hall := (nestedLoop_eq_none_iff reg ns.Table ns.SearchBy).mp hloop
      simp only [StagingNestedSearch.Valid, htable, hloop, Bool.not_true,
        Bool.false_eq_true, if_false, true_and]
      exact ⟨fun _ => hall, fun _ => trivial⟩
    | some r =>
      obtain ⟨e, hr⟩ := nestedLoop_eq_some reg ns.Table ns.SearchBy r hloop
      have hnot : ¬ ∀ p ∈ ns.SearchBy, entryOK reg ns.Table p := by
        intro hall
        rw [(nestedLoop_eq_none_iff reg ns.Table ns.SearchBy).mpr hall] at hloop
        cases hloop
      simp only [StagingNestedSearch.Valid, htable, hloop, hr, Bool.not_true,
        Bool.false_eq_true, if_false, true_and, false_iff]
      exact hnot

theorem nestedValid_eq_accept_iff {σ : Type} (reg : Registry σ) (ns : StagingNestedSearch) :
    StagingNestedSearch.Valid reg ns = (true, none) ↔
      reg.Valid ns.Table = true ∧ ∀ p ∈ ns.SearchBy, entryOK reg ns.Table p := by
  constructor
  · intro h
    exact (nestedValid_fst_iff reg ns).mp (by rw [h])
  · rintro ⟨htable, hall⟩
    simp [StagingNestedSearch.Valid, htable,
      (nestedLoop_eq_none_iff reg ns.Table ns.SearchBy).mpr hall]

/-- C11, at the failing input: on table `voters` (recognised, searchBy valid) the declared
fields key `rep` holds `{"table": 5.0, "searchBy": {}}`, a map with a map-valued searchBy
and a table that is not a string. `mapToNestedSearchBy` reaches the unchecked assertion
`table.(string)`, which panics: `Staging.Valid` returns no rejection at all. Without
searchBy (`{"table": "reps"}`) the same entry is rejected with the nested-search error. -/
theorem Staging_Valid_panics_on_non_string_table :
    mapToNestedSearchBy [("table", Value.float 0x4014000000000000),
        ("searchBy", Value.map [])] =
      Except.error (GoPanic.typeAssertion (Value.float 0x4014000000000000) "string") ∧
    Staging.Valid scenarioRegistry stagingNumberTable =
      Except.error (GoPanic.typeAssertion (Value.float 0x4014000000000000) "string") ∧
    (∀ r, Staging.Valid scenarioRegistry stagingNumberTable ≠ Except.ok r) ∧
    Staging.Valid scenarioRegistry stagingNoSearchBy =
      Except.ok (false, some ⟨"invalid nested searchBy: %v",
        some (Value.map [("table", Value.str "reps")])⟩) := by
  have h : Staging.Valid scenarioRegistry stagingNumberTable =
      Except.error (GoPanic.typeAssertion (Value.float 0x4014000000000000) "string") := rfl
  refine ⟨rfl, h, ?_, rfl⟩
  intro r hr
  rw [h] at hr
  cases hr

/-- What holds of C11 on every input: `mapToNestedSearchBy` returns `(nil, false)` when the
map has no `"table"`, no `"searchBy"`, or a `"searchBy"` that is not a map, and then
`Staging.Valid` (recognised table, valid searchBy, scalars with declared keys before the
entry, declared key) rejects with the nested-search error; it panics exactly when the map
has a `"table"` that is not a string next to a map-valued `"searchBy"`. -/
theorem Staging_Valid_rejects_malformed_nested {σ : Type} (reg : Registry σ)
    (s : Staging) (pre post : StagingFields) (k : String) (nested : StagingFields)
    (htable : reg.Valid s.Table = true)
    (hsearch : ∀ p ∈ s.SearchBy, entryOK reg s.Table p)
    (hfields : s.Fields = pre ++ (k, Value.map nested) :: post)
    (hpre : ∀ p ∈ pre, entryOK reg s.Table p)
    (hk : reg.isField s.Table k = true) :
    ((StagingFields.lookup nested "table" = none ∨
        StagingFields.lookup nested "searchBy" = none ∨
        ∃ v, StagingFields.lookup nested "searchBy" = some v ∧ ∀ m, v ≠ Value.map m) →
      Staging.Valid reg s =
        Except.ok (false, some ⟨"invalid nested searchBy: %v", some (Value.map nested)⟩)) ∧
    ((∃ p, Staging.Valid reg s = Except.error p) ↔
      ∃ t m, StagingFields.lookup nested "table" = some t ∧
        StagingFields.lookup nested "searchBy" = some (Value.map m) ∧
        ∀ str, t ≠ Value.str str) := by
  have h1 := (searchByLoop_eq_none_iff reg s.Table s.SearchBy).mpr hsearch
  have h3 : s.Fields.length ≠ 0 := by simp [hfields]
  have h2 : Staging.Valid.fieldsLoop reg s.Table s.Fields =
      Staging.Valid.fieldsLoop reg s.Table ((k, Value.map nested) :: post) := by
    rw [hfields, fieldsLoop_scalars reg s.Table pre _ hpre]
  constructor
  · intro hshape
    have hm : mapToNestedSearchBy nested = Except.ok none := by
      unfold mapToNestedSearchBy
      rcases hshape with h | h | ⟨v, h, hv⟩
      · simp [h]
      · cases ht : StagingFields.lookup nested "table" <;> simp [h]
      · cases ht : StagingFields.lookup nested "table" with
        | none => simp
        | some t =>
          cases v with
          | map m => exact absurd rfl (hv m)
          | _ => simp [h]
    simp [Staging.Valid, htable, h1, h3, h2, Staging.Valid.fieldsLoop, hk, hm]
  · cases ht : StagingFields.lookup nested "table" with
    | none =>
      simp [Staging.Valid, htable, h1, h3, h2, Staging.Valid.fieldsLoop, hk,
        mapToNestedSearchBy, ht]
    | some t =>
      cases hs : StagingFields.lookup nested "searchBy" with
      | none =>
        simp [Staging.Valid, htable, h1, h3, h2, Staging.Valid.fieldsLoop, hk,
          mapToNestedSearchBy, ht, hs]
      | some v =>
        cases v <;> cases t <;>
          simp [Staging.Valid, htable, h1, h3, h2, Staging.Valid.fieldsLoop, hk,
            mapToNestedSearchBy, ht, hs]

/-- C12: `StagingNestedSearch.Valid` accepts a nested search (returns `(true, nil)`, and
no other result with `true`) if and only if its table is recognised, every searchBy key is
a declared field of that table and every searchBy value is a float, bool or string. A
Staging on the same table with the same searchBy, and fields that pass (non-empty, declared
keys, scalar values), is accepted by `Staging.Valid` under exactly that condition. The
acceptance is the same for every order in which the searchBy entries are met. -/
theorem StagingNestedSearch_Valid_accepts_iff {σ : Type} (reg : Registry σ)
    (ns : StagingNestedSearch) (s : Staging) (searchBy' : StagingFields)
    (hs : s.Table = ns.Table ∧ s.SearchBy = ns.SearchBy)
    (hfields : s.Fields ≠ [] ∧ ∀ p ∈ s.Fields, entryOK reg s.Table p)
    (hperm : searchBy'.Perm ns.SearchBy) :
    (StagingNestedSearch.Valid reg ns = (true, none) ↔
      reg.Valid ns.Table = true ∧ ∀ p ∈ ns.SearchBy, entryOK reg ns.Table p) ∧
    ((StagingNestedSearch.Valid reg ns).1 = true ↔
      StagingNestedSearch.Valid reg ns = (true, none)) ∧
    (Staging.Valid reg s = Except.ok (true, none) ↔
      StagingNestedSearch.Valid reg ns = (true, none)) ∧
    (StagingNestedSearch.Valid reg ⟨ns.Table, searchBy'⟩ = (true, none) ↔
      StagingNestedSearch.Valid reg ns = (true, none)) := by
  refine ⟨nestedValid_eq_accept_iff reg ns, ?_, ?_, ?_⟩
  · rw [nestedValid_fst_iff, nestedValid_eq_accept_iff]
  · rw [nestedValid_eq_accept_iff, ← hs.1, ← hs.2]
    constructor
    · intro h
      cases htable : reg.Valid s.Table with
      | false =>
        simp [Staging.Valid, htable] at h
      | true =>
        refine ⟨rfl, ?_⟩
        cases hloop : Staging.Valid.searchByLoop reg s.Table s.SearchBy with
        | none => exact (searchByLoop_eq_none_iff reg s.Table s.SearchBy).mp hloop
        | some r =>
          obtain ⟨e, hr, _, _⟩ := searchByLoop_eq_some reg s.Table s.SearchBy r hloop
          simp [Staging.Valid, htable, hloop, hr] at h
    · rintro ⟨htable, hall⟩
      have h1 := (searchByLoop_eq_none_iff reg s.Table s.SearchBy).mpr hall
      have h2 := fieldsLoop_all_scalars reg s.Table s.Fields hfields.2
      have h3 : s.Fields.length ≠ 0 := fun h => hfields.1 (List.length_eq_zero.mp h)
      simp [Staging.Valid, htable, h1, h2, h3]
  · rw [nestedValid_eq_accept_iff, nestedValid_eq_accept_iff]
    simp only [hperm.mem_iff]

/-- C12, at the nested search `{T, {"b": 2, "a": 1}}`, the Staging on `T` with that
searchBy and the fields `{id: 1.0}`, and the searchBy met in the order `a`, `b`. -/
theorem StagingNestedSearch_Valid_accepts_iff_witness :
    ((stagingT.Table = nestedSearchT.Table ∧ stagingT.SearchBy = nestedSearchT.SearchBy) ∧
      (stagingT.Fields ≠ [] ∧ ∀ p ∈ stagingT.Fields, entryOK scenarioRegistry stagingT.Table p)
      ∧ searchByAB.Perm nestedSearchT.SearchBy) ∧
    ((StagingNestedSearch.Valid scenarioRegistry nestedSearchT = (true, none) ↔
      scenarioRegistry.Valid nestedSearchT.Table = true ∧
        ∀ p ∈ nestedSearchT.SearchBy, entryOK scenarioRegistry nestedSearchT.Table p) ∧
    ((StagingNestedSearch.Valid scenarioRegistry nestedSearchT).1 = true ↔
      StagingNestedSearch.Valid scenarioRegistry nestedSearchT = (true, none)) ∧
    (Staging.Valid scenarioRegistry stagingT = Except.ok (true, none) ↔
      StagingNestedSearch.Valid scenarioRegistry nestedSearchT = (true, none)) ∧
    (StagingNestedSearch.Valid scenarioRegistry ⟨nestedSearchT.Table, searchByAB⟩ =
        (true, none) ↔
      StagingNestedSearch.Valid scenarioRegistry nestedSearchT = (true, none))) ∧
    StagingNestedSearch.Valid scenarioRegistry nestedSearchT = (true, none) :=
  have hf : stagingT.Fields ≠ [] ∧
      ∀ p ∈ stagingT.Fields, entryOK scenarioRegistry stagingT.Table p := by
    refine ⟨by simp [stagingT], ?_⟩
    intro p hp
    simp only [stagingT, List.mem_singleton] at hp
    subst hp
    exact ⟨by decide, rfl⟩
  ⟨⟨⟨rfl, rfl⟩, hf, List.Perm.swap _ _ _⟩,
    StagingNestedSearch_Valid_accepts_iff scenarioRegistry nestedSearchT stagingT
      searchByAB ⟨rfl, rfl⟩ hf (List.Perm.swap _ _ _),
    rfl⟩

/-! ## Claims about `Equal` and `ExistIn` -/

/-- C13, at the failing inputs: `{"x": nil}.Equal({"y": 1.0})` is `true` although the two
maps have different keys, because the absent key reads as `nil` in `fields[k] != v`; and
`{"rep": <nested search>}.Equal` of the very same map panics on comparing two maps instead
of returning `true`. The spec's own example, `{"x": 1.0}` against `{"x": "1"}`, is
`false`. -/
theorem StagingFields_Equal_absent_key_and_map_value :
    StagingFields.Equal fieldsXNil fieldsYOne = Except.ok true ∧
    StagingFields.lookup fieldsYOne "x" = none ∧
    StagingFields.lookup fieldsXNil "y" = none ∧
    StagingFields.Equal fieldsRep fieldsRep = Except.error (GoPanic.uncomparable nestedReps) ∧
    StagingFields.Equal fieldsXOne fieldsXStr = Except.ok false :=
  ⟨rfl, rfl, rfl, rfl, rfl⟩

/-- C14, at the failing inputs: `{"x": nil}.ExistIn({})` is `true` although `x` is not a
key of the empty map, and `{"rep": <nested search>}.ExistIn({"rep": <the same>, "id": 1})`
panics on comparing two maps instead of returning `true`. The spec's three examples
evaluate as it says. -/
theorem StagingFields_ExistIn_absent_key_and_map_value :
    StagingFields.ExistIn fieldsXNil [] = Except.ok true ∧
    StagingFields.lookup [] "x" = none ∧
    StagingFields.ExistIn fieldsRep fieldsRepId =
      Except.error (GoPanic.uncomparable nestedReps) ∧
    StagingFields.ExistIn [] fieldsRepId = Except.ok true ∧
    StagingFields.ExistIn fieldsXOne fieldsXOneYTwo = Except.ok true ∧
    StagingFields.ExistIn fieldsXOne fieldsXTwo = Except.ok false :=
  ⟨rfl, rfl, rfl, rfl, rfl, rfl⟩

/-- C15, at the failing inputs: `Equal` is not reflexive, `{"rep": <nested search>}`
compared with itself panics and `{"x": NaN}` compared with itself is `false`; and it is
not symmetric, `{"x": nil}.Equal({"y": 1.0})` is `true` while
`{"y": 1.0}.Equal({"x": nil})` is `false`. -/
theorem StagingFields_Equal_not_reflexive_not_symmetric :
    StagingFields.Equal fieldsRep fieldsRep = Except.error (GoPanic.uncomparable nestedReps) ∧
    StagingFields.Equal fieldsXNaN fieldsXNaN = Except.ok false ∧
    StagingFields.Equal fieldsXNil fieldsYOne = Except.ok true ∧
    StagingFields.Equal fieldsYOne fieldsXNil = Except.ok false :=
  ⟨rfl, rfl, rfl, rfl⟩

/-! ## `Equal` and `ExistIn` on maps of floats, booleans and strings -/

theorem Value_ne_of_scalar (x v : Value) (hv : v.isScalar = true) :
    Value.ne x v = Except.ok (!Value.strictEq x v) := by
  cases x <;> cases v <;> simp_all [Value.ne, Value.strictEq, Value.isScalar, bne]

theorem float64Eq_comm (x y : Nat) : float64Eq x y = float64Eq y x := by
  unfold float64Eq
  rw [Bool.eq_iff_iff]
  simp only [Bool.and_eq_true, Bool.or_eq_true, decide_eq_true_eq, Bool.not_eq_true']
  constructor <;> rintro ⟨⟨h1, h2⟩, h3⟩ <;> refine ⟨⟨h2, h1⟩, ?_⟩ <;>
    rcases h3 with h3 | ⟨h3, h4⟩ <;>
    first
      | exact Or.inl h3.symm
      | exact Or.inr ⟨h4, h3⟩

theorem Value_strictEq_comm (x y : Value) : Value.strictEq x y = Value.strictEq y x := by
  cases x <;> cases y <;> simp [Value.strictEq, float64Eq_comm, Bool.beq_comm]

theorem Value_strictEq_self (v : Value) (hv : v.isScalar = true)
    (hnan : ∀ bits, v = Value.float bits → float64IsNaN bits = false) :
    Value.strictEq v v = true := by
  cases v with
  | float bits => simp [Value.strictEq, float64Eq, hnan bits rfl]
  | bool b => simp [Value.strictEq]
  | str s => simp [Value.strictEq]
  | _ => simp [Value.isScalar] at hv

theorem strictEq_index_iff (fields : StagingFields) (k : String) (v : Value) :
    Value.strictEq (StagingFields.index fields k) v = true ↔
      ∃ w, StagingFields.lookup fields k = some w ∧ Value.strictEq w v = true := by
  unfold StagingFields.index
  cases StagingFields.lookup fields k with
  | none => simp [Value.strictEq]
  | some w => simp

theorem existInLoop_of_scalars (fields sf : StagingFields)
    (hsf : ∀ p ∈ sf, p.2.isScalar = true) :
    StagingFields.ExistIn.loop fields sf =
      Except.ok (sf.all (fun p => Value.strictEq (StagingFields.index fields p.1) p.2)) := by
  induction sf with
  | nil => rfl
  | cons p rest ih =>
    obtain ⟨k, v⟩ := p
    have hv := hsf (k, v) (List.mem_cons_self _ _)
    have ih' := ih (fun q hq => hsf q (List.mem_cons_of_mem _ hq))
    simp only [StagingFields.ExistIn.loop, Value_ne_of_scalar _ v hv, List.all_cons]
    cases Value.strictEq (StagingFields.index fields k) v <;> simp [ih']

theorem equalLoop_eq_existInLoop (fields sf : StagingFields) :
    StagingFields.Equal.loop fields sf = StagingFields.ExistIn.loop fields sf := by
  induction sf with
  | nil => rfl
  | cons p rest ih =>
    obtain ⟨k, v⟩ := p
    simp only [StagingFields.Equal.loop, StagingFields.ExistIn.loop, ih]

theorem lookup_some_mem {m : StagingFields} {k : String} {v : Value}
    (h : StagingFields.lookup m k = some v) : (k, v) ∈ m := by
  induction m with
  | nil => simp [StagingFields.lookup] at h
  | cons p rest ih =>
    obtain ⟨k', v'⟩ := p
    simp only [StagingFields.lookup] at h
    by_cases e : k' = k
    · simp only [e, if_true, Option.some.injEq] at h
      simp [e, h]
    · simp only [e, if_false] at h
      exact List.mem_cons_of_mem _ (ih h)

/-- What holds of C14 on every map `a` whose values are floats, booleans or strings:
`a.ExistIn(b)` returns, and returns `true` if and only if every key of `a` is a key of `b`
and carries a strictly equal value there. -/
theorem StagingFields_ExistIn_of_scalars (a b : StagingFields)
    (ha : ∀ p ∈ a, p.2.isScalar = true) :
    ∃ r, StagingFields.ExistIn a b = Except.ok r ∧
      (r = true ↔ ∀ p ∈ a, ∃ w, StagingFields.lookup b p.1 = some w ∧
        Value.strictEq w p.2 = true) := by
  refine ⟨_, existInLoop_of_scalars b a ha, ?_⟩
  simp only [List.all_eq_true, strictEq_index_iff]

/-- What holds of C13 on every two maps, the first with distinct keys and with floats,
booleans or strings as values: `a.Equal(b)` returns, and returns `true` if and only if the
two maps have the same keys and every key carries strictly equal values. -/
theorem StagingFields_Equal_of_scalars (a b : StagingFields)
    (ha : ∀ p ∈ a, p.2.isScalar = true)
    (hnda : (StagingFields.keys a).Nodup) :
    ∃ r, StagingFields.Equal a b = Except.ok r ∧
      (r = true ↔ (StagingFields.keys a).Perm (StagingFields.keys b) ∧
        ∀ p ∈ a, ∃ w, StagingFields.lookup b p.1 = some w ∧
          Value.strictEq w p.2 = true) := by
  by_cases hlen : a.length = b.length
  · refine ⟨a.all (fun p => Value.strictEq (StagingFields.index b p.1) p.2), ?_, ?_⟩
    · simp only [StagingFields.Equal, hlen, ne_eq, not_true_eq_false, if_false,
        equalLoop_eq_existInLoop]
      exact existInLoop_of_scalars b a ha
    · simp only [List.all_eq_true, strictEq_index_iff]
      constructor
      · intro h
        refine ⟨?_, h⟩
        have hsub : StagingFields.keys a ⊆ StagingFields.keys b := by
          intro k hk
          obtain ⟨p, hp, rfl⟩ := List.mem_map.mp hk
          obtain ⟨w, hw, _⟩ := h p hp
          exact List.mem_map.mpr ⟨(p.1, w), lookup_some_mem hw, rfl⟩
        exact (List.subperm_of_subset hnda hsub).perm_of_length_le
          (by simp [StagingFields.keys, hlen])
      · exact fun h => h.2
  · refine ⟨false, by simp [StagingFields.Equal, hlen], ?_⟩
    constructor
    · intro h
      cases h
    · rintro ⟨hperm, _⟩
      exact absurd (by simpa [StagingFields.keys] using hperm.length_eq) hlen

/-- What holds of the reflexivity of C15: on every map with distinct keys whose values are
booleans, strings or floats other than NaN, `a.Equal(a)` is `true`. -/
theorem StagingFields_Equal_refl_of_scalars (a : StagingFields)
    (ha : ∀ p ∈ a, p.2.isScalar = true)
    (hnan : ∀ p ∈ a, ∀ bits, p.2 = Value.float bits → float64IsNaN bits = false)
    (hnd : (StagingFields.keys a).Nodup) :
    StagingFields.Equal a a = Except.ok true := by
  obtain ⟨r, hr, hiff⟩ := StagingFields_Equal_of_scalars a a ha hnd
  have : r = true := by
    rw [hiff]
    refine ⟨List.Perm.refl _, ?_⟩
    rintro ⟨k, v⟩ hp
    exact ⟨v, lookup_of_mem hnd hp, Value_strictEq_self v (ha _ hp) (hnan _ hp)⟩
  rw [hr, this]

/-- What holds of the symmetry of C15: on every two maps with distinct keys whose values
are floats, booleans or strings, `a.Equal(b)` and `b.Equal(a)` return the same. -/
theorem StagingFields_Equal_symm_of_scalars (a b : StagingFields)
    (ha : ∀ p ∈ a, p.2.isScalar = true) (hb : ∀ p ∈ b, p.2.isScalar = true)
    (hnda : (StagingFields.keys a).Nodup) (hndb : (StagingFields.keys b).Nodup) :
    StagingFields.Equal a b = StagingFields.Equal b a := by
  have key : ∀ (x y : StagingFields), (StagingFields.keys x).Nodup →
      (StagingFields.keys y).Nodup →
      ((StagingFields.keys x).Perm (StagingFields.keys y) ∧
        ∀ p ∈ x, ∃ w, StagingFields.lookup y p.1 = some w ∧
          Value.strictEq w p.2 = true) →
      ((StagingFields.keys y).Perm (StagingFields.keys x) ∧
        ∀ q ∈ y, ∃ w, StagingFields.lookup x q.1 = some w ∧
          Value.strictEq w q.2 = true) := by
    rintro x y hx hy ⟨hperm, hall⟩
    refine ⟨hperm.symm, ?_⟩
    rintro ⟨k, v⟩ hq
    have hk : k ∈ StagingFields.keys x :=
      hperm.symm.subset (List.mem_map.mpr ⟨(k, v), hq, rfl⟩)
    obtain ⟨⟨k', v'⟩, hp, hk'⟩ := List.mem_map.mp hk
    simp only at hk'
    subst hk'
    obtain ⟨w, hw, hwv⟩ := hall (k', v') hp
    have hwq : w = v := by
      have := lookup_of_mem hy hq
      rw [hw] at this
      exact Option.some.inj this
    subst hwq
    refine ⟨v', lookup_of_mem hx hp, ?_⟩
    rw [Value_strictEq_comm]
    exact hwv
  obtain ⟨r, hr, hiff⟩ := StagingFields_Equal_of_scalars a b ha hnda
  obtain ⟨r', hr', hiff'⟩ := StagingFields_Equal_of_scalars b a hb hndb
  have : r = r' := by
    cases r <;> cases r' <;> try rfl
    · exact absurd (hiff.mpr (key b a hndb hnda (hiff'.mp rfl))) (by simp)
    · exact absurd (hiff'.mpr (key a b hnda hndb (hiff.mp rfl))) (by simp)
  rw [hr, hr', this]

/-! ## Claims about `KeyString` -/

theorem keyStringLoop_present (render : Value → String) (fields : StagingFields)
    (pks strs : List String) (h : ∀ pk ∈ pks, StagingFields.lookup fields pk ≠ none) :
    Staging.KeyString.loop render fields pks strs =
      Except.ok (strs ++ pks.map (fun pk => render (StagingFields.index fields pk))) := by
  induction pks generalizing strs with
  | nil => simp [Staging.KeyString.loop]
  | cons pk pks ih =>
    have hpk := h pk (List.mem_cons_self _ _)
    cases hl : StagingFields.lookup fields pk with
    | none => exact absurd hl hpk
    | some v =>
      simp only [Staging.KeyString.loop, hl]
      rw [ih _ (fun q hq => h q (List.mem_cons_of_mem _ hq))]
      simp [StagingFields.index, hl]

theorem keyStringLoop_absent (render : Value → String) (fields : StagingFields)
    (pks strs : List String) (h : ∃ pk ∈ pks, StagingFields.lookup fields pk = none) :
    Staging.KeyString.loop render fields pks strs =
      Except.error (GoPanic.message "Staging.KeyString: missing pk") := by
  induction pks generalizing strs with
  | nil => simp at h
  | cons pk pks ih =>
    cases hl : StagingFields.lookup fields pk with
    | none => simp [Staging.KeyString.loop, hl]
    | some v =>
      simp only [Staging.KeyString.loop, hl]
      apply ih
      obtain ⟨q, hq, hqn⟩ := h
      rcases List.mem_cons.mp hq with e | hq'
      · subst e
        rw [hl] at hqn
        cases hqn
      · exact ⟨q, hq', hqn⟩

theorem keyStringLoop_present_result {σ : Type} (render : Value → String)
    (reg : Registry σ) (s : Staging)
    (h : ∀ pk ∈ reg.PkNames s.Table, StagingFields.lookup s.Fields pk ≠ none) :
    Staging.KeyString render reg s =
      Except.ok (String.intercalate "-"
        ((reg.PkNames s.Table).map
          (fun pk => render (StagingFields.index s.Fields pk)))) := by
  simp [Staging.KeyString, keyStringLoop_present render s.Fields (reg.PkNames s.Table) [] h]

theorem keyStringLoop_absent_result {σ : Type} (render : Value → String)
    (reg : Registry σ) (s : Staging)
    (h : ∃ pk ∈ reg.PkNames s.Table, StagingFields.lookup s.Fields pk = none) :
    Staging.KeyString render reg s =
      Except.error (GoPanic.message "Staging.KeyString: missing pk") := by
  simp [Staging.KeyString, keyStringLoop_absent render s.Fields (reg.PkNames s.Table) [] h]

/-- C16: for every Staging whose fields contains every primary-key field of its table,
`KeyString` returns the string representations of those primary-key values, in the
table's declared primary-key order, joined by `-`; and `KeyString` fails fatally (with the
panic `Staging.KeyString: missing pk`) if and only if some primary-key field is absent
from fields. -/
theorem Staging_KeyString_joins_or_panics {σ : Type} (render : Value → String)
    (reg : Registry σ) (s : Staging) :
    ((∀ pk ∈ reg.PkNames s.Table, StagingFields.lookup s.Fields pk ≠ none) →
      Staging.KeyString render reg s =
        Except.ok (String.intercalate "-"
          ((reg.PkNames s.Table).map
            (fun pk => render (StagingFields.index s.Fields pk))))) ∧
    ((∃ p, Staging.KeyString render reg s = Except.error p) ↔
      ∃ pk ∈ reg.PkNames s.Table, StagingFields.lookup s.Fields pk = none) ∧
    (∀ p, Staging.KeyString render reg s = Except.error p →
      p = GoPanic.message "Staging.KeyString: missing pk") := by
  by_cases h : ∀ pk ∈ reg.PkNames s.Table, StagingFields.lookup s.Fields pk ≠ none
  · have hl := keyStringLoop_present render s.Fields (reg.PkNames s.Table) [] h
    have hk : Staging.KeyString render reg s =
        Except.ok (String.intercalate "-"
          ((reg.PkNames s.Table).map
            (fun pk => render (StagingFields.index s.Fields pk)))) := by
      simp [Staging.KeyString, hl]
    refine ⟨fun _ => hk, ?_, ?_⟩
    · constructor
      · rintro ⟨p, hp⟩
        rw [hk] at hp
        cases hp
      · rintro ⟨pk, hpk, hn⟩
        exact absurd hn (h pk hpk)
    · intro p hp
      rw [hk] at hp
      cases hp
  · have h' : ∃ pk ∈ reg.PkNames s.Table, StagingFields.lookup s.Fields pk = none := by
      push_neg at h
      exact h
    have hl := keyStringLoop_absent render s.Fields (reg.PkNames s.Table) [] h'
    have hk : Staging.KeyString render reg s =
        Except.error (GoPanic.message "Staging.KeyString: missing pk") := by
      simp [Staging.KeyString, hl]
    refine ⟨fun hall => absurd hall h, ⟨fun _ => h', fun _ => ⟨_, hk⟩⟩, ?_⟩
    intro p hp
    rw [hk] at hp
    cases hp
    rfl

/-- C16, at the spec's scenario: on `voters` with fields `{name: "X", id: 1.0}` and
primary key `id`, `KeyString` returns `"1"`. -/
theorem Staging_KeyString_joins_or_panics_witness :
    (∀ pk ∈ scenarioRegistry.PkNames stagingVoters.Table,
      StagingFields.lookup stagingVoters.Fields pk ≠ none) ∧
    Staging.KeyString scenarioRender scenarioRegistry stagingVoters =
      Except.ok (String.intercalate "-"
        ((scenarioRegistry.PkNames stagingVoters.Table).map
          (fun pk => scenarioRender (StagingFields.index stagingVoters.Fields pk)))) ∧
    Staging.KeyString scenarioRender scenarioRegistry stagingVoters = Except.ok "1" :=
  have h : ∀ pk ∈ scenarioRegistry.PkNames stagingVoters.Table,
      StagingFields.lookup stagingVoters.Fields pk ≠ none := by
    intro pk hpk
    have e : pk = "id" := by
      simpa [scenarioRegistry, stagingVoters] using hpk
    subst e
    simp [stagingVoters, StagingFields.lookup]
  ⟨h, (Staging_KeyString_joins_or_panics scenarioRender scenarioRegistry stagingVoters).1 h,
    rfl⟩

/-- C17, counterexample: on `voters`, the Staging with searchBy `{district: "A"}` and
fields `{name: "X"}` is accepted by `Staging.Valid`, its fields hold no value for the
primary-key field `id`, and `KeyString` on it panics. -/
theorem Staging_Valid_accepts_without_primary_key :
    Staging.Valid scenarioRegistry stagingNameOnly = Except.ok (true, none) ∧
    "id" ∈ scenarioRegistry.PkNames stagingNameOnly.Table ∧
    StagingFields.lookup stagingNameOnly.Fields "id" = none ∧
    Staging.KeyString scenarioRender scenarioRegistry stagingNameOnly =
      Except.error (GoPanic.message "Staging.KeyString: missing pk") :=
  ⟨rfl, by decide, rfl, rfl⟩

/-- C17, amended: validation does not look at the primary key. For every Staging that
`Staging.Valid` accepts, fields is not empty, and `KeyString` returns a key string if and
only if every primary-key field of its table is present in fields; otherwise it fails
fatally. -/
theorem Staging_KeyString_after_Valid {σ : Type} (render : Value → String)
    (reg : Registry σ) (s : Staging)
    (hvalid : Staging.Valid reg s = Except.ok (true, none)) :
    s.Fields ≠ [] ∧
    ((∃ key, Staging.KeyString render reg s = Except.ok key) ↔
      ∀ pk ∈ reg.PkNames s.Table, StagingFields.lookup s.Fields pk ≠ none) ∧
    ((∃ p, Staging.KeyString render reg s = Except.error p) ↔
      ∃ pk ∈ reg.PkNames s.Table, StagingFields.lookup s.Fields pk = none) := by
  refine ⟨?_, ?_, ?_⟩
  · intro hempty
    cases htable : reg.Valid s.Table with
    | false => simp [Staging.Valid, htable] at hvalid
    | true =>
      cases hloop : Staging.Valid.searchByLoop reg s.Table s.SearchBy with
      | some r =>
        obtain ⟨e, hr, _, _⟩ := searchByLoop_eq_some reg s.Table s.SearchBy r hloop
        simp [Staging.Valid, htable, hloop, hr] at hvalid
      | none => simp [Staging.Valid, htable, hloop, hempty] at hvalid
  · constructor
    · rintro ⟨key, hkey⟩ pk hpk hn
      rw [keyStringLoop_absent_result render reg s ⟨pk, hpk, hn⟩] at hkey
      cases hkey
    · intro hall
      exact ⟨_, keyStringLoop_present_result render reg s hall⟩
  · constructor
    · rintro ⟨p, hp⟩
      by_contra hne
      push_neg at hne
      rw [keyStringLoop_present_result render reg s hne] at hp
      cases hp
    · intro h
      exact ⟨_, keyStringLoop_absent_result render reg s h⟩

/-- C17 amended, at the spec's scenario, which holds its primary key: `Valid` accepts and
`KeyString` returns `"1"`. -/
theorem Staging_KeyString_after_Valid_witness :
    Staging.Valid scenarioRegistry stagingVoters = Except.ok (true, none) ∧
    (stagingVoters.Fields ≠ [] ∧
    ((∃ key, Staging.KeyString scenarioRender scenarioRegistry stagingVoters =
        Except.ok key) ↔
      ∀ pk ∈ scenarioRegistry.PkNames stagingVoters.Table,
        StagingFields.lookup stagingVoters.Fields pk ≠ none) ∧
    ((∃ p, Staging.KeyString scenarioRender scenarioRegistry stagingVoters =
        Except.error p) ↔
      ∃ pk ∈ scenarioRegistry.PkNames stagingVoters.Table,
        StagingFields.lookup stagingVoters.Fields pk = none)) ∧
    Staging.KeyString scenarioRender scenarioRegistry stagingVoters = Except.ok "1" :=
  ⟨rfl, Staging_KeyString_after_Valid scenarioRender scenarioRegistry stagingVoters rfl,
    rfl⟩

/-- C18, counterexample: the table `log` has an empty primary-key list; `KeyString` on a
Staging of that table (which `Staging.Valid` accepts) does not fail, it returns the empty
string. -/
theorem Staging_KeyString_empty_primary_key_returns :
    registryNoPk.PkNames stagingLog.Table = [] ∧
    Staging.Valid registryNoPk stagingLog = Except.ok (true, none) ∧
    Staging.KeyString scenarioRender registryNoPk stagingLog = Except.ok "" ∧
    ¬ ∃ p, Staging.KeyString scenarioRender registryNoPk stagingLog = Except.error p := by
  have h : Staging.KeyString scenarioRender registryNoPk stagingLog = Except.ok "" := rfl
  refine ⟨rfl, rfl, h, ?_⟩
  rintro ⟨p, hp⟩
  rw [h] at hp
  cases hp

/-- C18, amended: for every Staging whose table has an empty primary-key list,
`KeyString` does not fail: it returns the empty string, whatever fields contains. -/
theorem Staging_KeyString_empty_primary_key {σ : Type} (render : Value → String)
    (reg : Registry σ) (s : Staging) (hpk : reg.PkNames s.Table = []) :
    Staging.KeyString render reg s = Except.ok "" := by
  simp [Staging.KeyString, hpk, Staging.KeyString.loop, String.intercalate]

/-- C18 amended, at the table `log`, which has no primary key. -/
theorem Staging_KeyString_empty_primary_key_witness :
    registryNoPk.PkNames stagingLog.Table = [] ∧
    Staging.KeyString scenarioRender registryNoPk stagingLog = Except.ok "" :=
  ⟨rfl, Staging_KeyString_empty_primary_key scenarioRender registryNoPk stagingLog rfl⟩

/-! ## The remaining claims about `searchQuery` and `Valid` -/

/-- C19: for every table, compiling an empty searchBy builds no predicate and no argument:
`searchQuery` returns an empty argument list and the query text
`"SELECT <pks> FROM <table> WHERE "`, which ends in a `WHERE` with nothing after it. -/
theorem searchQuery_empty_searchBy {σ : Type} (reg : Registry σ) (table : StagingTable) :
    searchQuery.whereList [] = [] ∧
    searchQuery reg table [] =
      (reg.PkNames table, reg.PkVars table,
        some ("SELECT " ++ String.intercalate ", " (reg.PkNames table) ++ " FROM " ++ table
          ++ " WHERE "),
        []) := by
  have ht := searchQuery_text_of_percent_free_keys reg table []
    (by simp [StagingFields.keys])
  have hp : predicatesFrom 1 (sortStrings (StagingFields.keys [])) = [] := rfl
  rw [hp] at ht
  have hs : specQueryText (reg.PkNames table) table [] =
      "SELECT " ++ String.intercalate ", " (reg.PkNames table) ++ " FROM " ++ table
        ++ " WHERE " := by
    simp [specQueryText, String.intercalate]
  rw [hs] at ht
  refine ⟨rfl, ?_⟩
  have hq : searchQuery reg table [] =
      (reg.PkNames table, reg.PkVars table, (searchQuery reg table []).2.2.1, []) := rfl
  rw [hq, ht]

/-- C20: `Staging.Valid` depends on the order in which fields is iterated. On the
recognised table `voters`, with a valid searchBy, the fields
`{"rep": <nested search on reps>, "district": <nested search on the unknown table ghosts>}`
are accepted when `rep` is met first and rejected, with the nested invalid-table error,
when `district` is met first: the first nested search met decides. -/
theorem Staging_Valid_order_dependent :
    ∃ s s' : Staging, s.Table = s'.Table ∧ s.SearchBy = s'.SearchBy ∧
      s.Fields.Perm s'.Fields ∧ (StagingFields.keys s.Fields).Nodup ∧
      scenarioRegistry.Valid s.Table = true ∧
      (∀ p ∈ s.SearchBy, entryOK scenarioRegistry s.Table p) ∧
      (∀ p ∈ s.Fields, scenarioRegistry.isField s.Table p.1 = true ∧
        ∃ m, p.2 = Value.map m) ∧
      Staging.Valid scenarioRegistry s = Except.ok (true, none) ∧
      Staging.Valid scenarioRegistry s' =
        Except.ok (false, some ⟨"invalid nested search table name: %s",
          some (Value.str "ghosts")⟩) := by
  refine ⟨stagingRepDistrict, stagingDistrictRep, rfl, rfl, List.Perm.swap _ _ _,
    by decide, by decide, ?_, ?_, rfl, rfl⟩
  · intro p hp
    simp only [stagingRepDistrict, stagingVoters, List.mem_singleton] at hp
    subst hp
    exact ⟨by decide, rfl⟩
  · intro p hp
    simp only [stagingRepDistrict, List.mem_cons, List.mem_singleton, List.not_mem_nil,
      or_false] at hp
    rcases hp with hp | hp <;> subst hp
    · exact ⟨by decide, _, rfl⟩
    · exact ⟨by decide, _, rfl⟩

end Model
